import Mathlib

/-!
# Verification of the bookings-management service

Shallow embedding of the booking service implemented in `backend/cmd/main.go`
together with the PostgreSQL schema, CHECK constraints and triggers it runs
against (`database/dbscript.sql`).  Dates are modelled as day numbers: the
count of days since 0000-01-01 in the proleptic Gregorian calendar, a plain
`Nat`.  Timestamps and UUIDs are `Nat` as well.  Each service
operation (`CreateBooking`, `UpdateBooking`, `CancelBooking`, the queries) is
translated into a pure function over an explicit store state `DB`; a SQL
transaction that fails is an `Except.error` result, which leaves the store as
it was (rollback), exactly as the Go code's `defer tx.Rollback()` does.
-/

namespace Bookings

/-! ## Calendar dates

A date value is a day number.  `rdOfDate y m d` converts a civil date to its
day number; `parseDate` embeds Go's `time.Parse("2006-01-02", s)`, which
demands the exact `YYYY-MM-DD` shape and range-checks month and day. -/

def isLeapYear (y : Nat) : Bool :=
  (y % 4 == 0 && y % 100 != 0) || y % 400 == 0

def daysInMonth (y m : Nat) : Nat :=
  match m with
  | 1 => 31
  | 2 => if isLeapYear y then 29 else 28
  | 3 => 31
  | 4 => 30
  | 5 => 31
  | 6 => 30
  | 7 => 31
  | 8 => 31
  | 9 => 30
  | 10 => 31
  | 11 => 30
  | 12 => 31
  | _ => 0

/-- Days occupied by months `1, …, m-1` of year `y`. -/
def daysBeforeMonth (y : Nat) : Nat → Nat
  | 0 => 0
  | k + 1 => daysBeforeMonth y k + daysInMonth y k

/-- Number of leap years among `0, …, y-1` (year 0 is a leap year). -/
def leapsBefore (y : Nat) : Nat :=
  (y + 3) / 4 - (y + 99) / 100 + (y + 399) / 400

/-- Day number of the civil date `y-m-d` (proleptic Gregorian, day 0 is
0000-01-01). -/
def rdOfDate (y m d : Nat) : Nat :=
  365 * y + leapsBefore y + daysBeforeMonth y m + (d - 1)

def digit? (c : Char) : Option Nat :=
  if c.isDigit then some (c.toNat - 48) else none

/-- Embeds Go's `time.Parse("2006-01-02", s)`: the input must be exactly
`YYYY-MM-DD` with a 4-digit year, a 2-digit month in `1..12` and a 2-digit day
within the month's length, else parsing fails. -/
def parseDate (s : String) : Option Nat :=
  match s.data with
  | [y1, y2, y3, y4, c1, m1, m2, c2, d1, d2] =>
    match digit? y1, digit? y2, digit? y3, digit? y4,
          digit? m1, digit? m2, digit? d1, digit? d2 with
    | some a, some b, some c, some d, some e, some f, some g, some h =>
      if c1 = '-' ∧ c2 = '-' then
        let y := ((a * 10 + b) * 10 + c) * 10 + d
        let m := e * 10 + f
        let dd := g * 10 + h
        if 1 ≤ m ∧ m ≤ 12 ∧ 1 ≤ dd ∧ dd ≤ daysInMonth y m then
          some (rdOfDate y m dd)
        else none
      else none
    | _, _, _, _, _, _, _, _ => none
  | _ => none

/-! ## Data model

The columns of the `bookings` and `booking_guests` tables (dbscript.sql lines
33-80), as carried by the Go `Booking` and `Guest` structs.  `total_nights` is
a generated column (`check_out_date - check_in_date`) and is therefore not
stored. -/

structure Booking where
  bookingId : Nat
  propertyId : Nat
  createdBy : Nat
  guestName : String
  guestIdCard : String
  guestContactNumber : String
  guestEmail : Option String
  checkInDate : Nat
  checkOutDate : Nat
  numberOfGuests : Int
  bookingNotes : Option String
  specialRequests : Option String
  bookingStatus : String
  bookingAmount : Option Int
  paymentStatus : String
  createdAt : Nat
  updatedAt : Nat
deriving DecidableEq, Repr

/-- `total_nights INTEGER GENERATED ALWAYS AS (check_out_date - check_in_date)`. -/
def Booking.totalNights (b : Booking) : Nat :=
  b.checkOutDate - b.checkInDate

structure Guest where
  guestId : Nat
  bookingId : Nat
  guestName : String
  guestIdCard : Option String
  guestContactNumber : Option String
  guestAge : Option Int
  relationshipToMainGuest : Option String
  createdAt : Nat
deriving DecidableEq, Repr

/-- The persistent store: the `bookings` and `booking_guests` tables. -/
structure DB where
  bookings : List Booking
  bookingGuests : List Guest
deriving DecidableEq, Repr

def DB.empty : DB := ⟨[], []⟩

/-! ## Schema constraints and the overlap trigger (dbscript.sql) -/

/-- `booking_status IN ('confirmed', 'pending')`, the status filter used by the
overlap trigger and by every "active bookings" query. -/
def isActive (s : String) : Bool :=
  s == "confirmed" || s == "pending"

def validBookingStatus (s : String) : Bool :=
  s == "pending" || s == "confirmed" || s == "cancelled" || s == "completed"

def validPaymentStatus (s : String) : Bool :=
  s == "pending" || s == "paid" || s == "partial" || s == "refunded"

/-- The row-level CHECK constraints of the `bookings` table:
`check_out_date > check_in_date`, `number_of_guests > 0`, and the two status
domain CHECKs. -/
def rowChecksOk (b : Booking) : Bool :=
  decide (b.checkInDate < b.checkOutDate) && decide (0 < b.numberOfGuests) &&
    validBookingStatus b.bookingStatus && validPaymentStatus b.paymentStatus

/-- The three-disjunct date condition of `check_booking_overlap`
(dbscript.sql lines 127-131), with `newIn`/`newOut` the NEW row's dates and
`oldIn`/`oldOut` an existing row's dates. -/
def rangesConflict (newIn newOut oldIn oldOut : Nat) : Bool :=
  (decide (oldIn ≤ newIn) && decide (newIn < oldOut)) ||
  (decide (oldIn < newOut) && decide (newOut ≤ oldOut)) ||
  (decide (newIn ≤ oldIn) && decide (oldOut ≤ newOut))

/-- The EXISTS subquery of `check_booking_overlap`: some row of the table has
the NEW row's property, an active status, a different id, and a conflicting
range.  The trigger raises an exception exactly when this holds. -/
def overlapViolation (table : List Booking) (newRow : Booking) : Bool :=
  table.any fun b =>
    b.propertyId == newRow.propertyId &&
    isActive b.bookingStatus &&
    b.bookingId != newRow.bookingId &&
    rangesConflict newRow.checkInDate newRow.checkOutDate
      b.checkInDate b.checkOutDate

/-- Error outcomes of the service operations, one per failure path of the Go
code and of the database. -/
inductive Err where
  /-- `CreateBooking`/`UpdateBooking`: `time.Parse` failed on check-in. -/
  | invalidCheckInFormat
  /-- `CreateBooking`/`UpdateBooking`: `time.Parse` failed on check-out. -/
  | invalidCheckOutFormat
  /-- The `prevent_booking_overlap` trigger raised
  `Booking dates overlap with existing booking for this property`. -/
  | overlap
  /-- A CHECK constraint of the `bookings` table was violated. -/
  | checkViolation
  /-- Primary-key violation on `bookings.booking_id`. -/
  | duplicateKey
  /-- `CancelBooking`: zero rows affected
  (`booking not found or cannot be cancelled`). -/
  | notCancellable
  /-- `UpdateBooking`: empty SET list (`no fields to update`). -/
  | noFieldsToUpdate
  /-- `UpdateBooking`: zero rows affected (`booking not found`). -/
  | notFound
deriving DecidableEq, Repr

/-- `INSERT INTO bookings`: the BEFORE INSERT trigger `check_booking_overlap`
fires first, then the row CHECK constraints and the primary key are enforced,
then the row is appended. -/
def sqlInsertBooking (db : DB) (row : Booking) : Except Err DB :=
  if overlapViolation db.bookings row then .error .overlap
  else if !rowChecksOk row then .error .checkViolation
  else if db.bookings.any (fun b => b.bookingId == row.bookingId) then
    .error .duplicateKey
  else .ok { db with bookings := db.bookings ++ [row] }

/-- `UPDATE bookings SET … WHERE …`: every matched row is rewritten by
`apply`; per matched row the BEFORE UPDATE trigger `check_booking_overlap` and
the CHECK constraints run against the updated row, aborting the whole
statement on violation.  Returns the new table and the affected row count. -/
def sqlUpdateBookings (db : DB) (pred : Booking → Bool) (apply : Booking → Booking) :
    Except Err (DB × Nat) :=
  if db.bookings.any (fun b => pred b && overlapViolation db.bookings (apply b)) then
    .error .overlap
  else if db.bookings.any (fun b => pred b && !rowChecksOk (apply b)) then
    .error .checkViolation
  else
    .ok ({ db with bookings := db.bookings.map fun b => if pred b then apply b else b },
         db.bookings.countP pred)

/-! ## Service operations (backend/cmd/main.go) -/

structure CreateGuestRequest where
  guestName : String
  guestIdCard : Option String
  guestContactNumber : Option String
  guestAge : Option Int
  relationshipToMainGuest : Option String
deriving DecidableEq, Repr

structure CreateBookingRequest where
  propertyId : Nat
  guestName : String
  guestIdCard : String
  guestContactNumber : String
  guestEmail : Option String
  checkInDate : String
  checkOutDate : String
  numberOfGuests : Int
  bookingNotes : Option String
  specialRequests : Option String
  bookingAmount : Option Int
  additionalGuests : List CreateGuestRequest
deriving DecidableEq, Repr

/-- The row `CreateBooking` inserts (main.go lines 222-235): status and
payment status take the schema defaults `'confirmed'` and `'pending'`;
created/updated timestamps default to the current time. -/
def newBookingRow (now : Nat) (userId : Nat) (newId : Nat)
    (req : CreateBookingRequest) (checkIn checkOut : Nat) : Booking :=
  { bookingId := newId
    propertyId := req.propertyId
    createdBy := userId
    guestName := req.guestName
    guestIdCard := req.guestIdCard
    guestContactNumber := req.guestContactNumber
    guestEmail := req.guestEmail
    checkInDate := checkIn
    checkOutDate := checkOut
    numberOfGuests := req.numberOfGuests
    bookingNotes := req.bookingNotes
    specialRequests := req.specialRequests
    bookingStatus := "confirmed"
    bookingAmount := req.bookingAmount
    paymentStatus := "pending"
    createdAt := now
    updatedAt := now }

/-- The `booking_guests` rows `CreateBooking` inserts alongside the booking,
one per additional guest, with caller-supplied fresh ids. -/
def newGuestRows (now : Nat) (bookingId : Nat) (guestIds : List Nat)
    (reqs : List CreateGuestRequest) : List Guest :=
  (guestIds.zip reqs).map fun p =>
    { guestId := p.1
      bookingId := bookingId
      guestName := p.2.guestName
      guestIdCard := p.2.guestIdCard
      guestContactNumber := p.2.guestContactNumber
      guestAge := p.2.guestAge
      relationshipToMainGuest := p.2.relationshipToMainGuest
      createdAt := now }

/-- `CreateBooking` (main.go lines 203-263): parse both dates, then in one
transaction insert the booking row (firing the overlap trigger and CHECKs)
and its additional-guest rows; on any error the transaction rolls back and
the store is unchanged.  `newId` and `guestIds` stand for the fresh UUIDs
drawn by `uuid.New()`. -/
def createBooking (db : DB) (now : Nat) (userId : Nat)
    (newId : Nat) (guestIds : List Nat) (req : CreateBookingRequest) :
    Except Err DB :=
  match parseDate req.checkInDate with
  | none => .error .invalidCheckInFormat
  | some checkIn =>
    match parseDate req.checkOutDate with
    | none => .error .invalidCheckOutFormat
    | some checkOut =>
      match sqlInsertBooking db (newBookingRow now userId newId req checkIn checkOut) with
      | .error e => .error e
      | .ok db1 =>
        .ok { db1 with bookingGuests :=
                db1.bookingGuests ++ newGuestRows now newId guestIds req.additionalGuests }

/-- `CancelBooking` (main.go lines 301-325):
`UPDATE bookings SET booking_status = 'cancelled', updated_at = now
WHERE booking_id = id AND check_in_date >= CURRENT_DATE AND
booking_status IN ('confirmed','pending')`; zero affected rows is the error
`booking not found or cannot be cancelled`.  The `userId` argument is taken
and ignored, as in the Go code. -/
def cancelBooking (db : DB) (today : Nat) (now : Nat)
    (bookingId : Nat) (userId : Nat) : Except Err DB :=
  match sqlUpdateBookings db
      (fun b => b.bookingId == bookingId &&
        decide (today ≤ b.checkInDate) && isActive b.bookingStatus)
      (fun b => { b with bookingStatus := "cancelled", updatedAt := now }) with
  | .error e => .error e
  | .ok (db1, rowsAffected) =>
    if rowsAffected == 0 then .error .notCancellable else .ok db1

structure UpdateBookingRequest where
  guestName : Option String
  guestIdCard : Option String
  guestContactNumber : Option String
  guestEmail : Option String
  checkInDate : Option String
  checkOutDate : Option String
  numberOfGuests : Option Int
  bookingNotes : Option String
  specialRequests : Option String
  bookingAmount : Option Int
  bookingStatus : Option String
  paymentStatus : Option String
deriving DecidableEq, Repr

/-- True when at least one SET part would be generated, i.e. some field of the
update request is supplied. -/
def hasAnyField (req : UpdateBookingRequest) : Bool :=
  req.guestName.isSome || req.guestIdCard.isSome || req.guestContactNumber.isSome ||
  req.guestEmail.isSome || req.checkInDate.isSome || req.checkOutDate.isSome ||
  req.numberOfGuests.isSome || req.bookingNotes.isSome || req.specialRequests.isSome ||
  req.bookingAmount.isSome || req.bookingStatus.isSome || req.paymentStatus.isSome

/-- Parse of the optional check-in date in `UpdateBooking`. -/
def parsedCheckIn (req : UpdateBookingRequest) : Except Err (Option Nat) :=
  match req.checkInDate with
  | none => .ok none
  | some s =>
    match parseDate s with
    | none => .error .invalidCheckInFormat
    | some d => .ok (some d)

/-- Parse of the optional check-out date in `UpdateBooking`. -/
def parsedCheckOut (req : UpdateBookingRequest) : Except Err (Option Nat) :=
  match req.checkOutDate with
  | none => .ok none
  | some s =>
    match parseDate s with
    | none => .error .invalidCheckOutFormat
    | some d => .ok (some d)

/-- The SET list of `UpdateBooking` applied to a stored row: each supplied
field overwrites the column, unsupplied fields keep their value, and
`updated_at = CURRENT_TIMESTAMP` is always appended. -/
def applyUpdateFields (req : UpdateBookingRequest) (ci co : Option Nat)
    (now : Nat) (b : Booking) : Booking :=
  { b with
    guestName := req.guestName.getD b.guestName
    guestIdCard := req.guestIdCard.getD b.guestIdCard
    guestContactNumber := req.guestContactNumber.getD b.guestContactNumber
    guestEmail := match req.guestEmail with
      | some v => some v
      | none => b.guestEmail
    checkInDate := ci.getD b.checkInDate
    checkOutDate := co.getD b.checkOutDate
    numberOfGuests := req.numberOfGuests.getD b.numberOfGuests
    bookingNotes := match req.bookingNotes with
      | some v => some v
      | none => b.bookingNotes
    specialRequests := match req.specialRequests with
      | some v => some v
      | none => b.specialRequests
    bookingAmount := match req.bookingAmount with
      | some v => some v
      | none => b.bookingAmount
    bookingStatus := req.bookingStatus.getD b.bookingStatus
    paymentStatus := req.paymentStatus.getD b.paymentStatus
    updatedAt := now }

/-- `UpdateBooking` (main.go lines 328-442): build the dynamic SET list in
field order — a supplied but unparseable date aborts while the list is being
built — fail with `no fields to update` when the list is empty, then run
`UPDATE bookings SET … WHERE booking_id = id` (firing the overlap trigger and
CHECKs on the rewritten row); zero affected rows is `booking not found`. -/
def updateBooking (db : DB) (now : Nat) (bookingId : Nat)
    (userId : Nat) (req : UpdateBookingRequest) : Except Err DB :=
  match parsedCheckIn req with
  | .error e => .error e
  | .ok ci =>
    match parsedCheckOut req with
    | .error e => .error e
    | .ok co =>
      if !hasAnyField req then .error .noFieldsToUpdate
      else
        match sqlUpdateBookings db (fun b => b.bookingId == bookingId)
            (applyUpdateFields req ci co now) with
        | .error e => .error e
        | .ok (db1, rowsAffected) =>
          if rowsAffected == 0 then .error .notFound else .ok db1

/-! ## Listing queries -/

/-- Ascending check-in order (`ORDER BY check_in_date ASC`). -/
def checkInAsc (a b : Booking) : Prop := a.checkInDate ≤ b.checkInDate

/-- Descending check-in order (`ORDER BY check_in_date DESC`). -/
def checkInDesc (a b : Booking) : Prop := b.checkInDate ≤ a.checkInDate

/-- Descending check-out order (`ORDER BY check_out_date DESC`). -/
def checkOutDesc (a b : Booking) : Prop := b.checkOutDate ≤ a.checkOutDate

instance : DecidableRel checkInAsc := fun _ _ => Nat.decLe _ _
instance : DecidableRel checkInDesc := fun _ _ => Nat.decLe _ _
instance : DecidableRel checkOutDesc := fun _ _ => Nat.decLe _ _

instance : IsTotal Booking checkInAsc := ⟨fun a b => Nat.le_total a.checkInDate b.checkInDate⟩
instance : IsTrans Booking checkInAsc := ⟨fun _ _ _ h1 h2 => Nat.le_trans h1 h2⟩
instance : IsTotal Booking checkInDesc := ⟨fun a b => Nat.le_total b.checkInDate a.checkInDate⟩
instance : IsTrans Booking checkInDesc := ⟨fun _ _ _ h1 h2 => Nat.le_trans h2 h1⟩
instance : IsTotal Booking checkOutDesc := ⟨fun a b => Nat.le_total b.checkOutDate a.checkOutDate⟩
instance : IsTrans Booking checkOutDesc := ⟨fun _ _ _ h1 h2 => Nat.le_trans h2 h1⟩

/-- `GetUpcomingBookings` (main.go lines 266-281): bookings of the property
with `check_in_date >= CURRENT_DATE`, `check_in_date <= up_to_date` and an
active status, ordered by check-in ascending. -/
def getUpcomingBookings (db : DB) (today : Nat) (pid : Nat)
    (upToDate : Nat) : List Booking :=
  List.insertionSort checkInAsc
    (db.bookings.filter fun b =>
      b.propertyId == pid && decide (today ≤ b.checkInDate) &&
      decide (b.checkInDate ≤ upToDate) && isActive b.bookingStatus)

/-- `GetPreviousBookings` (main.go lines 284-298): bookings of the property
with `check_out_date < CURRENT_DATE` and `check_out_date >= back_to_date`
(no status filter), ordered by check-out descending. -/
def getPreviousBookings (db : DB) (today : Nat) (pid : Nat)
    (backToDate : Nat) : List Booking :=
  List.insertionSort checkOutDesc
    (db.bookings.filter fun b =>
      b.propertyId == pid && decide (b.checkOutDate < today) &&
      decide (backToDate ≤ b.checkOutDate))

/-! ## Calendar projection (`GetMonthCalendar`, main.go lines 138-200)

The Go code computes `firstDay = time.Nat(year, month, 1, …)` and
`lastDay = firstDay.AddDate(0, 1, -1)`; `AddDate` normalises month 13 to
January of the next year, which `rdOfDate` does as well, so
`lastDayRd y m = rdOfDate y (m+1) 1 - 1`.  The loop guard
`d.Year() == year && int(d.Month()) == month` holds, for a month in `1..12`,
exactly when the day number lies in `[firstDayRd, lastDayRd]`, which is how
`inYearMonth` renders it. -/

def firstDayRd (y m : Nat) : Nat := rdOfDate y m 1

def lastDayRd (y m : Nat) : Nat := rdOfDate y (m + 1) 1 - 1

def inYearMonth (y m : Nat) (d : Nat) : Bool :=
  decide (firstDayRd y m ≤ d) && decide (d ≤ lastDayRd y m)

/-- The days `d` with `checkIn ≤ d < checkOut` iterated by the marking loop
(`for d := checkIn; d.Before(checkOut); d = d.AddDate(0, 0, 1)`). -/
def bookingDays (b : Booking) : List Nat :=
  (List.range (b.checkOutDate - b.checkInDate)).map (b.checkInDate + ·)

/-- One iteration of the marking loop: each day of the booking's range that
falls inside the queried month is written to the `bookedDates` map (later
writes overwrite earlier ones, as in the Go map assignment). -/
def markBookingDays (y m : Nat) (b : Booking) (acc : Nat → Option Nat) :
    Nat → Option Nat :=
  (bookingDays b).foldl
    (fun acc2 d =>
      if inYearMonth y m d then
        fun x => if x = d then some b.bookingId else acc2 x
      else acc2)
    acc

/-- The SQL fetch of `GetMonthCalendar`: active bookings of the property with
`check_in_date <= lastDay AND check_out_date > firstDay`. -/
def calendarFetch (db : DB) (pid : Nat) (y m : Nat) : List Booking :=
  db.bookings.filter fun b =>
    b.propertyId == pid && isActive b.bookingStatus &&
    decide (b.checkInDate ≤ lastDayRd y m) && decide (firstDayRd y m < b.checkOutDate)

/-- The `bookedDates` map after all fetched rows have been processed. -/
def bookedDatesMap (db : DB) (pid : Nat) (y m : Nat) :
    Nat → Option Nat :=
  (calendarFetch db pid y m).foldl (fun acc b => markBookingDays y m b acc)
    (fun _ => none)

structure CalendarDay where
  date : Nat
  isBooked : Bool
  bookingId : Option Nat
deriving DecidableEq, Repr

structure MonthCalendar where
  year : Nat
  month : Nat
  days : List CalendarDay
deriving DecidableEq, Repr

/-- `GetMonthCalendar`: walk the month from `firstDay` to `lastDay`, emitting
one `CalendarDay` per day, booked when the `bookedDates` map holds an entry
for it (in which case the covering booking's id is attached). -/
def getMonthCalendar (db : DB) (pid : Nat) (y m : Nat) : MonthCalendar :=
  let first := firstDayRd y m
  let last := lastDayRd y m
  let booked := bookedDatesMap db pid y m
  { year := y
    month := m
    days := (List.range (last + 1 - first)).map fun k =>
      { date := first + k
        isBooked := (booked (first + k)).isSome
        bookingId := booked (first + k) } }

/-! ## Guest-name search (`SearchBookingsByGuestName`, main.go lines 445-459)

The SQL filter is `LOWER(guest_name) LIKE LOWER('%' || name || '%')`.
`likeMatch` is SQL `LIKE` over character lists: `%` matches any sequence,
`_` any single character, backslash escapes the next pattern character, any
other character matches itself. -/

/-- All suffixes of a character list, longest first. -/
def suffixes : List Char → List (List Char)
  | [] => [[]]
  | c :: t => (c :: t) :: suffixes t

/-- SQL `LIKE` pattern matching (PostgreSQL semantics, backslash escape). -/
def likeMatch : List Char → List Char → Bool
  | [], s => s.isEmpty
  | c :: ps, s =>
    if c = '\\' then
      match ps, s with
      | p :: ps2, x :: t => p == x && likeMatch ps2 t
      | _, _ => false
    else if c = '%' then
      (suffixes s).any fun t => likeMatch ps t
    else if c = '_' then
      match s with
      | [] => false
      | _ :: t => likeMatch ps t
    else
      match s with
      | [] => false
      | x :: t => c == x && likeMatch ps t

/-- `LOWER`, applied characterwise as by PostgreSQL on ASCII. -/
def lowerChars (l : List Char) : List Char := l.map Char.toLower

/-- The pattern `"%" + guestName + "%"` built by the Go code. -/
def likePatternOf (guestName : String) : List Char :=
  '%' :: (guestName.data ++ ['%'])

/-- `SearchBookingsByGuestName`: bookings of the property (any status) whose
lower-cased guest name matches the lower-cased `%name%` pattern, ordered by
check-in descending. -/
def searchBookingsByGuestName (db : DB) (pid : Nat) (guestName : String) :
    List Booking :=
  List.insertionSort checkInDesc
    (db.bookings.filter fun b =>
      b.propertyId == pid &&
      likeMatch (lowerChars (likePatternOf guestName)) (lowerChars b.guestName.data))

/-- Modelled from the spec: "case-insensitive substring match against the
primary guest name" — the search string occurs inside the guest name once both
are lower-cased.  Used to compare the LIKE-based implementation against the
spec's description. -/
def specContainsCI (needle hay : String) : Bool :=
  decide (lowerChars needle.data <:+: lowerChars hay.data)

/-! ## Basic characterisations -/

/-- For valid ranges the trigger's three-disjunct test is exactly half-open
interval intersection. -/
theorem rangesConflict_eq_intersect (nIn nOut oIn oOut : Nat)
    (hn : nIn < nOut) (ho : oIn < oOut) :
    rangesConflict nIn nOut oIn oOut = true ↔ (nIn < oOut ∧ oIn < nOut) := by
  simp only [rangesConflict, Bool.or_eq_true, Bool.and_eq_true, decide_eq_true_eq]
  omega

theorem isActive_iff (s : String) :
    isActive s = true ↔ (s = "pending" ∨ s = "confirmed") := by
  simp [isActive, or_comm]

theorem rowChecksOk_dates {b : Booking} (h : rowChecksOk b = true) :
    b.checkInDate < b.checkOutDate := by
  simp only [rowChecksOk, Bool.and_eq_true, decide_eq_true_eq] at h
  exact h.1.1.1

theorem overlapViolation_iff (table : List Booking) (row : Booking) :
    overlapViolation table row = true ↔
      ∃ b ∈ table, b.propertyId = row.propertyId ∧ isActive b.bookingStatus = true ∧
        b.bookingId ≠ row.bookingId ∧
        rangesConflict row.checkInDate row.checkOutDate b.checkInDate b.checkOutDate = true := by
  simp [overlapViolation, List.any_eq_true, Bool.and_eq_true, beq_iff_eq,
    bne_iff_ne, and_assoc]

theorem overlapViolation_eq_false {table : List Booking} {row : Booking}
    (h : overlapViolation table row = false) {b : Booking} (hb : b ∈ table)
    (hp : b.propertyId = row.propertyId) (ha : isActive b.bookingStatus = true)
    (hid : b.bookingId ≠ row.bookingId) :
    rangesConflict row.checkInDate row.checkOutDate b.checkInDate b.checkOutDate = false := by
  by_contra hc
  rw [Bool.not_eq_false] at hc
  have : overlapViolation table row = true :=
    (overlapViolation_iff table row).mpr ⟨b, hb, hp, ha, hid, hc⟩
  rw [this] at h
  exact Bool.true_eq_false.mp h

/-! ## The store invariant and its preservation -/

/-- The inductive store invariant: booking ids are pairwise distinct, every
row satisfies its CHECK constraints, and no two distinct active bookings of
one property have intersecting half-open ranges. -/
def Inv (db : DB) : Prop :=
  db.bookings.Pairwise (fun a b => a.bookingId ≠ b.bookingId) ∧
  (∀ b ∈ db.bookings, rowChecksOk b = true) ∧
  ∀ b1 ∈ db.bookings, ∀ b2 ∈ db.bookings, b1.bookingId ≠ b2.bookingId →
    b1.propertyId = b2.propertyId → isActive b1.bookingStatus = true →
    isActive b2.bookingStatus = true →
    ¬(b1.checkInDate < b2.checkOutDate ∧ b2.checkInDate < b1.checkOutDate)

instance (db : DB) : Decidable (Inv db) := by
  unfold Inv; infer_instance

theorem idNe_symm : Symmetric (fun a b : Booking => a.bookingId ≠ b.bookingId) :=
  fun _ _ hab he => hab he.symm

theorem Inv.eq_of_id {db : DB} (h : Inv db) {b1 b2 : Booking}
    (h1 : b1 ∈ db.bookings) (h2 : b2 ∈ db.bookings)
    (hid : b1.bookingId = b2.bookingId) : b1 = b2 := by
  by_contra hne
  exact List.Pairwise.forall idNe_symm h.1 h1 h2 hne hid

theorem sqlInsertBooking_ok {db : DB} {row : Booking} {db' : DB}
    (h : sqlInsertBooking db row = .ok db') :
    overlapViolation db.bookings row = false ∧ rowChecksOk row = true ∧
      (∀ b ∈ db.bookings, b.bookingId ≠ row.bookingId) ∧
      db'.bookings = db.bookings ++ [row] ∧ db'.bookingGuests = db.bookingGuests := by
  unfold sqlInsertBooking at h
  cases hov : overlapViolation db.bookings row <;> rw [hov] at h
  case true => simp at h
  case false =>
  cases hchk : rowChecksOk row <;> rw [hchk] at h
  case false => simp at h
  case true =>
  cases hdup : db.bookings.any (fun b => b.bookingId == row.bookingId) <;> rw [hdup] at h
  case true => simp at h
  case false =>
  simp only [Bool.false_eq_true, if_false, Bool.not_false, Bool.true_eq_false,
    if_true, Bool.not_true] at h
  refine ⟨rfl, rfl, ?_, ?_, ?_⟩
  · intro b hb heq
    have : db.bookings.any (fun b => b.bookingId == row.bookingId) = true :=
      List.any_eq_true.mpr ⟨b, hb, by simp [heq]⟩
    rw [this] at hdup
    exact Bool.noConfusion hdup
  · injection h with h4
    rw [← h4]
  · injection h with h4
    rw [← h4]

theorem sqlUpdateBookings_ok {db : DB} {pred : Booking → Bool}
    {apply : Booking → Booking} {db' : DB} {n : Nat}
    (h : sqlUpdateBookings db pred apply = .ok (db', n)) :
    (∀ b ∈ db.bookings, pred b = true →
        overlapViolation db.bookings (apply b) = false ∧ rowChecksOk (apply b) = true) ∧
      db'.bookings = (db.bookings.map fun b => if pred b then apply b else b) ∧
      db'.bookingGuests = db.bookingGuests ∧ n = db.bookings.countP pred := by
  unfold sqlUpdateBookings at h
  cases h1 : db.bookings.any (fun b => pred b && overlapViolation db.bookings (apply b)) <;>
    rw [h1] at h
  case true => simp at h
  case false =>
  cases h2 : db.bookings.any (fun b => pred b && !rowChecksOk (apply b)) <;> rw [h2] at h
  case true => simp at h
  case false =>
  simp only [Bool.false_eq_true, if_false] at h
  refine ⟨?_, ?_, ?_, ?_⟩
  · intro b hb hpb
    constructor
    · cases hov : overlapViolation db.bookings (apply b)
      · rfl
      · have : db.bookings.any (fun b => pred b && overlapViolation db.bookings (apply b)) = true :=
          List.any_eq_true.mpr ⟨b, hb, by simp [hpb, hov]⟩
        rw [this] at h1
        exact Bool.noConfusion h1
    · cases hchk : rowChecksOk (apply b)
      · have : db.bookings.any (fun b => pred b && !rowChecksOk (apply b)) = true :=
          List.any_eq_true.mpr ⟨b, hb, by simp [hpb, hchk]⟩
        rw [this] at h2
        exact Bool.noConfusion h2
      · rfl
  · injection h with h3
    rw [← (Prod.mk.injEq _ _ _ _).mp h3 |>.1]
  · injection h with h3
    rw [← (Prod.mk.injEq _ _ _ _).mp h3 |>.1]
  · injection h with h3
    rw [(Prod.mk.injEq _ _ _ _).mp h3 |>.2]

theorem Inv_insert {db : DB} {row : Booking} {db' : DB} (hInv : Inv db)
    (h : sqlInsertBooking db row = .ok db') : Inv db' := by
  obtain ⟨hov, hchk, hfresh, hbk, hbg⟩ := sqlInsertBooking_ok h
  obtain ⟨huniq, hrows, hconf⟩ := hInv
  unfold Inv
  rw [hbk]
  refine ⟨?_, ?_, ?_⟩
  · rw [List.pairwise_append]
    refine ⟨huniq, by simp, ?_⟩
    intro a ha b hb
    rw [List.mem_singleton] at hb
    rw [hb]
    exact hfresh a ha
  · intro b hb
    rcases List.mem_append.mp hb with hm | hm
    · exact hrows b hm
    · rw [List.mem_singleton] at hm
      rw [hm]
      exact hchk
  · intro b1 h1 b2 h2 hne hp ha1 ha2
    rcases List.mem_append.mp h1 with hm1 | hm1 <;>
      rcases List.mem_append.mp h2 with hm2 | hm2
    · exact hconf b1 hm1 b2 hm2 hne hp ha1 ha2
    · rw [List.mem_singleton] at hm2
      rw [hm2] at hne hp ha2 ⊢
      have hcf := overlapViolation_eq_false hov hm1 hp ha1 hne
      have hiff := rangesConflict_eq_intersect row.checkInDate row.checkOutDate
        b1.checkInDate b1.checkOutDate (rowChecksOk_dates hchk)
        (rowChecksOk_dates (hrows b1 hm1))
      intro hx
      exact Bool.noConfusion ((hiff.mpr ⟨hx.2, hx.1⟩).symm.trans hcf)
    · rw [List.mem_singleton] at hm1
      rw [hm1] at hne hp ha1 ⊢
      have hcf := overlapViolation_eq_false hov hm2 hp.symm ha2 (Ne.symm hne)
      have hiff := rangesConflict_eq_intersect row.checkInDate row.checkOutDate
        b2.checkInDate b2.checkOutDate (rowChecksOk_dates hchk)
        (rowChecksOk_dates (hrows b2 hm2))
      intro hx
      exact Bool.noConfusion ((hiff.mpr hx).symm.trans hcf)
    · rw [List.mem_singleton] at hm1 hm2
      rw [hm1, hm2] at hne
      exact absurd rfl hne

theorem Inv_sqlUpdate {db : DB} {pred : Booking → Bool} {apply : Booking → Booking}
    {db' : DB} {n : Nat} (hInv : Inv db)
    (hid : ∀ b, (apply b).bookingId = b.bookingId)
    (hone : ∀ b1 ∈ db.bookings, ∀ b2 ∈ db.bookings,
      pred b1 = true → pred b2 = true → b1 = b2)
    (h : sqlUpdateBookings db pred apply = .ok (db', n)) : Inv db' := by
  obtain ⟨hok, hbk, hbg, -⟩ := sqlUpdateBookings_ok h
  obtain ⟨huniq, hrows, hconf⟩ := hInv
  unfold Inv
  rw [hbk]
  refine ⟨?_, ?_, ?_⟩
  · refine List.Pairwise.map _ (fun a b hab => ?_) huniq
    show (if pred a = true then apply a else a).bookingId ≠
      (if pred b = true then apply b else b).bookingId
    by_cases hpa : pred a = true <;> by_cases hpb : pred b = true <;>
      simp only [hpa, hpb, if_true, if_false, hid] <;> exact hab
  · intro b' hb'
    obtain ⟨b, hb, he⟩ := List.mem_map.mp hb'
    by_cases hp : pred b = true <;> simp only [hp, if_true, if_false] at he <;> rw [← he]
    · exact (hok b hb hp).2
    · exact hrows b hb
  · intro b1' h1' b2' h2' hne hp ha1 ha2
    obtain ⟨b1, hb1, he1⟩ := List.mem_map.mp h1'
    obtain ⟨b2, hb2, he2⟩ := List.mem_map.mp h2'
    by_cases hp1 : pred b1 = true <;> by_cases hp2 : pred b2 = true <;>
      simp only [hp1, hp2, if_true, if_false] at he1 he2 <;> subst he1 <;> subst he2
    · exact absurd (congrArg Booking.bookingId
        (congrArg apply (hone b1 hb1 b2 hb2 hp1 hp2))) hne
    · have hcf := overlapViolation_eq_false (hok b1 hb1 hp1).1 hb2 hp.symm ha2
        (Ne.symm hne)
      have hiff := rangesConflict_eq_intersect (apply b1).checkInDate
        (apply b1).checkOutDate b2.checkInDate b2.checkOutDate
        (rowChecksOk_dates (hok b1 hb1 hp1).2) (rowChecksOk_dates (hrows b2 hb2))
      intro hx
      exact Bool.noConfusion ((hiff.mpr hx).symm.trans hcf)
    · have hcf := overlapViolation_eq_false (hok b2 hb2 hp2).1 hb1 hp ha1 hne
      have hiff := rangesConflict_eq_intersect (apply b2).checkInDate
        (apply b2).checkOutDate b1.checkInDate b1.checkOutDate
        (rowChecksOk_dates (hok b2 hb2 hp2).2) (rowChecksOk_dates (hrows b1 hb1))
      intro hx
      exact Bool.noConfusion ((hiff.mpr ⟨hx.2, hx.1⟩).symm.trans hcf)
    · have hidne : b1.bookingId ≠ b2.bookingId := hne
      exact hconf b1 hb1 b2 hb2 hidne hp ha1 ha2

theorem Inv_congr {db1 db2 : DB} (h : db1.bookings = db2.bookings)
    (hInv : Inv db1) : Inv db2 := by
  unfold Inv at hInv ⊢
  rw [← h]
  exact hInv

theorem Inv_create {db db' : DB} {now userId newId : Nat} {guestIds : List Nat}
    {req : CreateBookingRequest} (hInv : Inv db)
    (h : createBooking db now userId newId guestIds req = .ok db') : Inv db' := by
  unfold createBooking at h
  cases hci : parseDate req.checkInDate <;> simp only [hci] at h
  case none => exact absurd h (by simp)
  case some ci =>
  cases hco : parseDate req.checkOutDate <;> simp only [hco] at h
  case none => exact absurd h (by simp)
  case some co =>
  cases hins : sqlInsertBooking db (newBookingRow now userId newId req ci co) <;>
    simp only [hins] at h
  case error e => exact absurd h (by simp)
  case ok db1 =>
  injection h with h1
  exact Inv_congr (by rw [← h1]) (Inv_insert hInv hins)

theorem cancelPred_id {bookingId today : Nat} {b : Booking}
    (h : (b.bookingId == bookingId && decide (today ≤ b.checkInDate) &&
      isActive b.bookingStatus) = true) : b.bookingId = bookingId := by
  simp only [Bool.and_eq_true, beq_iff_eq] at h
  exact h.1.1

theorem Inv_cancel {db db' : DB} {today now bookingId userId : Nat} (hInv : Inv db)
    (h : cancelBooking db today now bookingId userId = .ok db') : Inv db' := by
  unfold cancelBooking at h
  cases hup : sqlUpdateBookings db
      (fun b => b.bookingId == bookingId &&
        decide (today ≤ b.checkInDate) && isActive b.bookingStatus)
      (fun b => { b with bookingStatus := "cancelled", updatedAt := now }) <;>
    simp only [hup] at h
  case error e => exact absurd h (by simp)
  case ok p =>
  obtain ⟨db1, k⟩ := p
  have hInv1 : Inv db1 := by
    refine Inv_sqlUpdate hInv ?_ ?_ hup
    · intro b
      rfl
    · intro b1 hb1 b2 hb2 hp1 hp2
      exact hInv.eq_of_id hb1 hb2 ((cancelPred_id hp1).trans (cancelPred_id hp2).symm)
  cases k with
  | zero => simp at h
  | succ k2 =>
    simp only [Nat.succ_eq_add_one] at h
    rw [if_neg (by simp)] at h
    injection h with h1
    exact Inv_congr (by rw [h1]) hInv1

theorem Inv_update {db db' : DB} {now bookingId userId : Nat}
    {req : UpdateBookingRequest} (hInv : Inv db)
    (h : updateBooking db now bookingId userId req = .ok db') : Inv db' := by
  unfold updateBooking at h
  cases hci : parsedCheckIn req <;> simp only [hci] at h
  case error e => exact absurd h (by simp)
  case ok ci =>
  cases hco : parsedCheckOut req <;> simp only [hco] at h
  case error e => exact absurd h (by simp)
  case ok co =>
  cases hf : hasAnyField req <;> simp only [hf, Bool.not_false, Bool.not_true,
    if_true, if_false] at h
  case false => exact absurd h (by simp)
  case true =>
  cases hup : sqlUpdateBookings db (fun b => b.bookingId == bookingId)
      (applyUpdateFields req ci co now) <;> simp only [hup] at h
  case error e => exact absurd h (by simp)
  case ok p =>
  obtain ⟨db1, k⟩ := p
  have hInv1 : Inv db1 := by
    refine Inv_sqlUpdate hInv ?_ ?_ hup
    · intro b
      rfl
    · intro b1 hb1 b2 hb2 hp1 hp2
      rw [beq_iff_eq] at hp1 hp2
      exact hInv.eq_of_id hb1 hb2 (hp1.trans hp2.symm)
  cases k with
  | zero => simp at h
  | succ k2 =>
    simp only [Nat.succ_eq_add_one] at h
    rw [if_neg (by simp)] at h
    injection h with h1
    exact Inv_congr (by rw [h1]) hInv1

/-- The states reachable from the empty store by any sequence of
`createBooking`, `updateBooking` and `cancelBooking` calls (with arbitrary
clocks, callers and fresh ids at each step; failed calls leave the store
unchanged and so produce no new state). -/
inductive Reachable : DB → Prop where
  | empty : Reachable DB.empty
  | create (db db' : DB) (now userId newId : Nat) (guestIds : List Nat)
      (req : CreateBookingRequest) : Reachable db →
      createBooking db now userId newId guestIds req = .ok db' → Reachable db'
  | cancel (db db' : DB) (today now bookingId userId : Nat) : Reachable db →
      cancelBooking db today now bookingId userId = .ok db' → Reachable db'
  | update (db db' : DB) (now bookingId userId : Nat)
      (req : UpdateBookingRequest) : Reachable db →
      updateBooking db now bookingId userId req = .ok db' → Reachable db'

theorem reachable_inv {db : DB} (h : Reachable db) : Inv db := by
  induction h with
  | empty => exact ⟨List.Pairwise.nil, by simp [DB.empty], by simp [DB.empty]⟩
  | create db db' now userId newId guestIds req hr hok ih => exact Inv_create ih hok
  | cancel db db' today now bookingId userId hr hok ih => exact Inv_cancel ih hok
  | update db db' now bookingId userId req hr hok ih => exact Inv_update ih hok

/-! ## Claim C1 — the non-overlap invariant -/

/-- Claim C1: for every reachable state produced by any sequence of
`CreateBooking`, `UpdateBooking` and `CancelBooking` calls, no two distinct
bookings on the same property that both have status `pending` or `confirmed`
have intersecting half-open date ranges `[check_in_date, check_out_date)`. -/
theorem no_active_overlap_invariant (db : DB) (h : Reachable db) :
    ∀ b1 ∈ db.bookings, ∀ b2 ∈ db.bookings, b1 ≠ b2 →
      b1.propertyId = b2.propertyId →
      (b1.bookingStatus = "pending" ∨ b1.bookingStatus = "confirmed") →
      (b2.bookingStatus = "pending" ∨ b2.bookingStatus = "confirmed") →
      ¬(b1.checkInDate < b2.checkOutDate ∧ b2.checkInDate < b1.checkOutDate) := by
  intro b1 h1 b2 h2 hne hp hs1 hs2
  obtain ⟨huniq, hrows, hconf⟩ := reachable_inv h
  exact hconf b1 h1 b2 h2 (List.Pairwise.forall idNe_symm huniq h1 h2 hne) hp
    ((isActive_iff _).mpr hs1) ((isActive_iff _).mpr hs2)

/-- A create request for property 5 with stay 2024-01-15 … 2024-01-20. -/
def wReqA : CreateBookingRequest :=
  { propertyId := 5
    guestName := "John Doe"
    guestIdCard := "ID1"
    guestContactNumber := "+1"
    guestEmail := none
    checkInDate := "2024-01-15"
    checkOutDate := "2024-01-20"
    numberOfGuests := 2
    bookingNotes := none
    specialRequests := none
    bookingAmount := none
    additionalGuests := [] }

/-- A create request for property 5 with stay 2024-01-20 … 2024-01-22,
checking in on the day `wReqA` checks out. -/
def wReqB : CreateBookingRequest :=
  { wReqA with checkInDate := "2024-01-20", checkOutDate := "2024-01-22" }

def wBookingA : Booking :=
  newBookingRow 0 7 1 wReqA (rdOfDate 2024 1 15) (rdOfDate 2024 1 20)

def wBookingB : Booking :=
  newBookingRow 0 7 2 wReqB (rdOfDate 2024 1 20) (rdOfDate 2024 1 22)

def wDB1 : DB := ⟨[wBookingA], []⟩

def wDB : DB := ⟨[wBookingA, wBookingB], []⟩

theorem wDB1_step : createBooking DB.empty 0 7 1 [] wReqA = .ok wDB1 := by rfl

theorem wDB_step : createBooking wDB1 0 7 2 [] wReqB = .ok wDB := by rfl

theorem wDB_reachable : Reachable wDB :=
  Reachable.create wDB1 wDB 0 7 2 [] wReqB
    (Reachable.create DB.empty wDB1 0 7 1 [] wReqA Reachable.empty wDB1_step)
    wDB_step

theorem no_active_overlap_invariant_witness :
    Reachable wDB ∧ wBookingA ∈ wDB.bookings ∧ wBookingB ∈ wDB.bookings ∧
      wBookingA ≠ wBookingB ∧ wBookingA.propertyId = wBookingB.propertyId ∧
      ¬(wBookingA.checkInDate < wBookingB.checkOutDate ∧
        wBookingB.checkInDate < wBookingA.checkOutDate) :=
  ⟨wDB_reachable, by decide, by decide, by decide, by decide,
    no_active_overlap_invariant wDB wDB_reachable wBookingA (by decide) wBookingB
      (by decide) (by decide) (by decide) (by decide) (by decide)⟩

/-! ## Claim C2 — half-open overlap semantics and touching ranges -/

/-- Claim C2: for valid ranges the trigger's three-disjunct conflict condition
holds iff `a_in < b_out AND b_in < a_out`; a booking ending on a date `D` and
one starting on `D` never conflict, in either direction of comparison, and
concretely both creates (2024-01-15…20 then 2024-01-20…22, same property)
succeed. -/
theorem conflict_condition_halfopen :
    (∀ aIn aOut bIn bOut : Nat, aIn < aOut → bIn < bOut →
      (rangesConflict aIn aOut bIn bOut = true ↔ (aIn < bOut ∧ bIn < aOut))) ∧
    (∀ D x y : Nat, x < D → D < y →
      rangesConflict x D D y = false ∧ rangesConflict D y x D = false) ∧
    (createBooking DB.empty 0 7 1 [] wReqA = .ok wDB1 ∧
      createBooking wDB1 0 7 2 [] wReqB = .ok wDB) := by
  refine ⟨rangesConflict_eq_intersect, ?_, wDB1_step, wDB_step⟩
  intro D x y h1 h2
  constructor <;>
    · unfold rangesConflict
      simp only [Bool.or_eq_true, Bool.and_eq_true, decide_eq_true_eq,
        Bool.or_eq_false_iff, Bool.and_eq_false_iff, decide_eq_false_iff_not,
        not_le, not_lt]
      omega

theorem conflict_condition_halfopen_witness :
    (rangesConflict 15 20 18 22 = true ↔ (15 < 22 ∧ 18 < 20)) ∧
      (rangesConflict 10 20 20 25 = false ∧ rangesConflict 20 25 10 20 = false) :=
  ⟨conflict_condition_halfopen.1 15 20 18 22 (by decide) (by decide),
    conflict_condition_halfopen.2.1 20 10 25 (by decide) (by decide)⟩

/-! ## Claim C3 — overlapping create is rejected atomically -/

/-- Claim C3: in any state with an active booking `A` = [2024-01-15,
2024-01-20) on a property, `CreateBooking` of [2024-01-18, 2024-01-22) on the
same property fails with the overlap error.  The `.error` result is the
rolled-back transaction of the Go code: no booking row and no
`booking_guests` row of the attempted create is committed, and every stored
row — `A` included — is exactly as before the call. -/
theorem create_overlapping_rejected (db : DB) (now userId newId : Nat)
    (guestIds : List Nat) (A : Booking) (req : CreateBookingRequest)
    (hA : A ∈ db.bookings) (hact : isActive A.bookingStatus = true)
    (hci : A.checkInDate = rdOfDate 2024 1 15)
    (hco : A.checkOutDate = rdOfDate 2024 1 20)
    (hid : A.bookingId ≠ newId)
    (hp : req.propertyId = A.propertyId)
    (hin : req.checkInDate = "2024-01-18")
    (hout : req.checkOutDate = "2024-01-22") :
    createBooking db now userId newId guestIds req = .error Err.overlap := by
  unfold createBooking
  rw [hin, hout]
  rw [show parseDate "2024-01-18" = some (rdOfDate 2024 1 18) from by decide,
    show parseDate "2024-01-22" = some (rdOfDate 2024 1 22) from by decide]
  simp only []
  unfold sqlInsertBooking
  have hov : overlapViolation db.bookings
      (newBookingRow now userId newId req (rdOfDate 2024 1 18) (rdOfDate 2024 1 22)) = true := by
    refine (overlapViolation_iff _ _).mpr ⟨A, hA, hp.symm, hact, hid, ?_⟩
    show rangesConflict (rdOfDate 2024 1 18) (rdOfDate 2024 1 22)
      A.checkInDate A.checkOutDate = true
    rw [hci, hco]
    decide
  rw [hov]
  simp

/-- One concrete active booking [2024-01-15, 2024-01-20) on property 5. -/
def wDBc3 : DB := ⟨[wBookingA], []⟩

def wReqC : CreateBookingRequest :=
  { wReqA with checkInDate := "2024-01-18", checkOutDate := "2024-01-22" }

theorem create_overlapping_rejected_witness :
    wBookingA ∈ wDBc3.bookings ∧ isActive wBookingA.bookingStatus = true ∧
      createBooking wDBc3 0 7 2 [] wReqC = .error Err.overlap :=
  ⟨by decide, by decide,
    create_overlapping_rejected wDBc3 0 7 2 [] wBookingA wReqC (by decide)
      (by decide) (by decide) (by decide) (by decide) (by decide) (by decide)
      (by decide)⟩

/-! ## Claim C4 — create-side validation -/

/-- A create request whose dates parse but are equal (violating
`check_out_date > check_in_date`), aimed inside `wBookingA`'s range. -/
def wReqEq : CreateBookingRequest :=
  { wReqA with checkInDate := "2024-01-17", checkOutDate := "2024-01-17" }

/-- Counterexample to claim C4 as stated: this request violates "check-out
after check-in", yet against a store holding the active booking
[2024-01-15, 2024-01-20) it fails with the overlap error — the BEFORE INSERT
trigger fires before the CHECK constraints — not with a validation error. -/
theorem create_validation_counterexample :
    (∃ ci co, parseDate wReqEq.checkInDate = some ci ∧
      parseDate wReqEq.checkOutDate = some co ∧ ¬(ci < co)) ∧
    createBooking wDBc3 0 7 2 [] wReqEq = .error Err.overlap ∧
    Err.overlap ≠ Err.checkViolation ∧ Err.overlap ≠ Err.invalidCheckInFormat ∧
    Err.overlap ≠ Err.invalidCheckOutFormat :=
  ⟨⟨rdOfDate 2024 1 17, rdOfDate 2024 1 17, by decide, by decide, by decide⟩,
    by rfl, by decide, by decide, by decide⟩

/-- Claim C4 (amended): `CreateBooking` enforces all three validations and in
every violating case creates no booking (the error result is the rolled-back
transaction).  An unparseable check-in or check-out string fails with the
corresponding date-format error; a request whose dates parse but violate
check-out-after-check-in or a positive guest count fails with the
CHECK-constraint error — unless the requested range also conflicts with an
existing active booking, in which case the overlap error is raised first,
because the BEFORE INSERT trigger runs before the CHECK constraints. -/
theorem create_validation (db : DB) (now userId newId : Nat)
    (guestIds : List Nat) (req : CreateBookingRequest) :
    (parseDate req.checkInDate = none →
      createBooking db now userId newId guestIds req =
        .error Err.invalidCheckInFormat) ∧
    (∀ ci, parseDate req.checkInDate = some ci →
      parseDate req.checkOutDate = none →
      createBooking db now userId newId guestIds req =
        .error Err.invalidCheckOutFormat) ∧
    (∀ ci co, parseDate req.checkInDate = some ci →
      parseDate req.checkOutDate = some co →
      ¬(ci < co ∧ 0 < req.numberOfGuests) →
      createBooking db now userId newId guestIds req =
        .error (if overlapViolation db.bookings
            (newBookingRow now userId newId req ci co)
          then Err.overlap else Err.checkViolation)) := by
  refine ⟨?_, ?_, ?_⟩
  · intro h
    unfold createBooking
    rw [h]
  · intro ci h1 h2
    unfold createBooking
    rw [h1, h2]
  · intro ci co h1 h2 hbad
    unfold createBooking
    rw [h1, h2]
    simp only []
    unfold sqlInsertBooking
    have hchk : rowChecksOk (newBookingRow now userId newId req ci co) = false := by
      rw [Bool.eq_false_iff]
      intro hc
      apply hbad
      simp only [rowChecksOk, newBookingRow, Bool.and_eq_true,
        decide_eq_true_eq] at hc
      exact ⟨hc.1.1.1, hc.1.1.2⟩
    cases hov : overlapViolation db.bookings
        (newBookingRow now userId newId req ci co) <;>
      simp [hov, hchk]

theorem create_validation_witness :
    (parseDate "2024-01-xx" = none ∧
      createBooking DB.empty 0 7 1 []
        { wReqA with checkInDate := "2024-01-xx" } =
        .error Err.invalidCheckInFormat) ∧
    (parseDate wReqEq.checkInDate = some (rdOfDate 2024 1 17) ∧
      parseDate wReqEq.checkOutDate = some (rdOfDate 2024 1 17) ∧
      ¬(rdOfDate 2024 1 17 < rdOfDate 2024 1 17 ∧
        (0 : Int) < wReqEq.numberOfGuests) ∧
      createBooking DB.empty 0 7 1 [] wReqEq =
        .error (if overlapViolation DB.empty.bookings
            (newBookingRow 0 7 1 wReqEq (rdOfDate 2024 1 17) (rdOfDate 2024 1 17))
          then Err.overlap else Err.checkViolation)) :=
  ⟨⟨by decide,
      (create_validation DB.empty 0 7 1 []
        { wReqA with checkInDate := "2024-01-xx" }).1 (by decide)⟩,
    by decide, by decide, by decide,
    (create_validation DB.empty 0 7 1 [] wReqEq).2.2 (rdOfDate 2024 1 17)
      (rdOfDate 2024 1 17) (by decide) (by decide) (by decide)⟩

/-! ## Claim C10 — empty update request -/

/-- Claim C10: `UpdateBooking` with a request supplying no field fails with
the `no fields to update` error before the UPDATE statement is ever built, so
the store — every field of every booking, the updated-at timestamp
included — is untouched, whether or not the booking id exists. -/
theorem update_no_fields (db : DB) (now bookingId userId : Nat)
    (req : UpdateBookingRequest)
    (h1 : req.guestName = none) (h2 : req.guestIdCard = none)
    (h3 : req.guestContactNumber = none) (h4 : req.guestEmail = none)
    (h5 : req.checkInDate = none) (h6 : req.checkOutDate = none)
    (h7 : req.numberOfGuests = none) (h8 : req.bookingNotes = none)
    (h9 : req.specialRequests = none) (h10 : req.bookingAmount = none)
    (h11 : req.bookingStatus = none) (h12 : req.paymentStatus = none) :
    updateBooking db now bookingId userId req = .error Err.noFieldsToUpdate := by
  simp [updateBooking, parsedCheckIn, parsedCheckOut, hasAnyField,
    h1, h2, h3, h4, h5, h6, h7, h8, h9, h10, h11, h12]

/-- The update request with no field supplied. -/
def wReqNone : UpdateBookingRequest :=
  { guestName := none, guestIdCard := none, guestContactNumber := none
    guestEmail := none, checkInDate := none, checkOutDate := none
    numberOfGuests := none, bookingNotes := none, specialRequests := none
    bookingAmount := none, bookingStatus := none, paymentStatus := none }

theorem update_no_fields_witness :
    updateBooking wDB 5 1 7 wReqNone = .error Err.noFieldsToUpdate :=
  update_no_fields wDB 5 1 7 wReqNone rfl rfl rfl rfl rfl rfl rfl rfl rfl rfl
    rfl rfl

/-! ## Claim C6 — cancellation window -/

theorem any_false_of_pointwise {l : List Booking} {p : Booking → Bool}
    (h : ∀ b ∈ l, p b = false) : l.any p = false := by
  rw [Bool.eq_false_iff]
  intro hany
  obtain ⟨b, hb, hpb⟩ := List.any_eq_true.mp hany
  rw [h b hb] at hpb
  exact Bool.noConfusion hpb

theorem rowChecksOk_cancel {b : Booking} (now : Nat) (h : rowChecksOk b = true) :
    rowChecksOk { b with bookingStatus := "cancelled", updatedAt := now } = true := by
  simp only [rowChecksOk, Bool.and_eq_true] at h ⊢
  exact ⟨⟨h.1.1, by decide⟩, h.2⟩

theorem cancelPred_active {bookingId today : Nat} {b : Booking}
    (h : (b.bookingId == bookingId && decide (today ≤ b.checkInDate) &&
      isActive b.bookingStatus) = true) : isActive b.bookingStatus = true := by
  simp only [Bool.and_eq_true] at h
  exact h.2

/-- In a state satisfying the invariant, the UPDATE issued by `CancelBooking`
never trips the overlap trigger or a CHECK constraint: it returns the mapped
table and the matched-row count. -/
theorem cancel_sqlUpdate (db : DB) (today now bookingId : Nat) (hInv : Inv db) :
    sqlUpdateBookings db
      (fun b => b.bookingId == bookingId &&
        decide (today ≤ b.checkInDate) && isActive b.bookingStatus)
      (fun b => { b with bookingStatus := "cancelled", updatedAt := now }) =
    .ok ({ db with bookings := db.bookings.map fun b =>
        if (b.bookingId == bookingId && decide (today ≤ b.checkInDate) &&
            isActive b.bookingStatus)
        then { b with bookingStatus := "cancelled", updatedAt := now } else b },
      db.bookings.countP fun b => b.bookingId == bookingId &&
        decide (today ≤ b.checkInDate) && isActive b.bookingStatus) := by
  obtain ⟨huniq, hrows, hconf⟩ := hInv
  unfold sqlUpdateBookings
  have h1 : db.bookings.any (fun b =>
      (b.bookingId == bookingId && decide (today ≤ b.checkInDate) &&
        isActive b.bookingStatus) &&
      overlapViolation db.bookings
        { b with bookingStatus := "cancelled", updatedAt := now }) = false := by
    refine any_false_of_pointwise ?_
    intro b hb
    rw [Bool.eq_false_iff]
    intro hband
    rw [Bool.and_eq_true] at hband
    obtain ⟨hpred, hov⟩ := hband
    obtain ⟨o, ho, hop, hoa, hoid, hoc⟩ := (overlapViolation_iff _ _).mp hov
    have hbact : isActive b.bookingStatus = true := cancelPred_active hpred
    have hvb : b.checkInDate < b.checkOutDate := rowChecksOk_dates (hrows b hb)
    have hvo : o.checkInDate < o.checkOutDate := rowChecksOk_dates (hrows o ho)
    have hx := (rangesConflict_eq_intersect b.checkInDate b.checkOutDate
      o.checkInDate o.checkOutDate hvb hvo).mp hoc
    exact hconf o ho b hb hoid hop hoa hbact ⟨hx.2, hx.1⟩
  have h2 : db.bookings.any (fun b =>
      (b.bookingId == bookingId && decide (today ≤ b.checkInDate) &&
        isActive b.bookingStatus) &&
      !rowChecksOk { b with bookingStatus := "cancelled", updatedAt := now }) = false := by
    refine any_false_of_pointwise ?_
    intro b hb
    rw [rowChecksOk_cancel now (hrows b hb)]
    simp
  rw [h1, h2]
  simp

/-- Claim C6: under the store invariant, `CancelBooking` succeeds iff the
booking exists, its check-in date is today or later, and its status is
`pending` or `confirmed`; on success the matched row's status becomes
`cancelled` (with a refreshed updated-at) and nothing else changes; a second
cancel of the same booking then fails with the not-cancellable error rather
than silently succeeding; and a booking whose check-in date is past cannot be
cancelled. -/
theorem cancel_spec (db : DB) (today now bookingId userId : Nat) (hInv : Inv db) :
    ((∃ db', cancelBooking db today now bookingId userId = .ok db') ↔
      ∃ b ∈ db.bookings, b.bookingId = bookingId ∧ today ≤ b.checkInDate ∧
        (b.bookingStatus = "pending" ∨ b.bookingStatus = "confirmed")) ∧
    (∀ db', cancelBooking db today now bookingId userId = .ok db' →
      db'.bookings = (db.bookings.map fun b =>
        if (b.bookingId == bookingId && decide (today ≤ b.checkInDate) &&
            isActive b.bookingStatus)
        then { b with bookingStatus := "cancelled", updatedAt := now } else b) ∧
      db'.bookingGuests = db.bookingGuests) ∧
    (∀ db' today2 now2 userId2,
      cancelBooking db today now bookingId userId = .ok db' →
      cancelBooking db' today2 now2 bookingId userId2 =
        .error Err.notCancellable) ∧
    (∀ b ∈ db.bookings, b.bookingId = bookingId → b.checkInDate < today →
      cancelBooking db today now bookingId userId =
        .error Err.notCancellable) := by
  have hred := cancel_sqlUpdate db today now bookingId hInv
  have hcnt0 : db.bookings.countP (fun b => b.bookingId == bookingId &&
        decide (today ≤ b.checkInDate) && isActive b.bookingStatus) = 0 →
      cancelBooking db today now bookingId userId = .error Err.notCancellable := by
    intro h0
    unfold cancelBooking
    rw [hred]
    simp only [h0]
    rfl
  have hframe : ∀ db', cancelBooking db today now bookingId userId = .ok db' →
      db' = { db with bookings := db.bookings.map fun b =>
        if (b.bookingId == bookingId && decide (today ≤ b.checkInDate) &&
            isActive b.bookingStatus)
        then { b with bookingStatus := "cancelled", updatedAt := now } else b } ∧
      db.bookings.countP (fun b => b.bookingId == bookingId &&
        decide (today ≤ b.checkInDate) && isActive b.bookingStatus) ≠ 0 := by
    intro db' hok
    by_cases h0 : db.bookings.countP (fun b => b.bookingId == bookingId &&
        decide (today ≤ b.checkInDate) && isActive b.bookingStatus) = 0
    · rw [hcnt0 h0] at hok
      exact absurd hok (by simp)
    · unfold cancelBooking at hok
      rw [hred] at hok
      simp only [] at hok
      rw [if_neg (by simpa using h0)] at hok
      injection hok with h1
      exact ⟨h1.symm, h0⟩
  refine ⟨?_, ?_, ?_, ?_⟩
  · constructor
    · rintro ⟨db', hok⟩
      obtain ⟨-, h0⟩ := hframe db' hok
      obtain ⟨b, hb, hpred⟩ := List.countP_pos.mp (Nat.pos_of_ne_zero h0)
      simp only [Bool.and_eq_true, beq_iff_eq, decide_eq_true_eq] at hpred
      exact ⟨b, hb, hpred.1.1, hpred.1.2, (isActive_iff _).mp hpred.2⟩
    · rintro ⟨b, hb, hid, hday, hst⟩
      have hpred : (b.bookingId == bookingId && decide (today ≤ b.checkInDate) &&
          isActive b.bookingStatus) = true := by
        simp only [Bool.and_eq_true, beq_iff_eq, decide_eq_true_eq]
        exact ⟨⟨hid, hday⟩, (isActive_iff _).mpr hst⟩
      have hpos : 0 < db.bookings.countP (fun b =>
          b.bookingId == bookingId && decide (today ≤ b.checkInDate) &&
          isActive b.bookingStatus) := List.countP_pos.mpr ⟨b, hb, hpred⟩
      refine ⟨{ db with bookings := db.bookings.map fun b =>
        if (b.bookingId == bookingId && decide (today ≤ b.checkInDate) &&
            isActive b.bookingStatus)
        then { b with bookingStatus := "cancelled", updatedAt := now }
        else b }, ?_⟩
      unfold cancelBooking
      rw [hred]
      simp only []
      rw [if_neg (by simpa using Nat.pos_iff_ne_zero.mp hpos)]
  · intro db' hok
    obtain ⟨h1, -⟩ := hframe db' hok
    rw [h1]
    exact ⟨rfl, rfl⟩
  · intro db' today2 now2 userId2 hok
    obtain ⟨h1, h0⟩ := hframe db' hok
    obtain ⟨b0, hb0, hp0⟩ := List.countP_pos.mp (Nat.pos_of_ne_zero h0)
    have hpw : ∀ b' ∈ db'.bookings,
        (b'.bookingId == bookingId && decide (today2 ≤ b'.checkInDate) &&
          isActive b'.bookingStatus) = false := by
      intro b' hb'
      rw [h1] at hb'
      obtain ⟨b, hb, he⟩ := List.mem_map.mp hb'
      by_cases hpb : (b.bookingId == bookingId &&
          decide (today ≤ b.checkInDate) && isActive b.bookingStatus) = true
      · simp only [hpb, if_true] at he
        rw [← he]
        show (b.bookingId == bookingId && decide (today2 ≤ b.checkInDate) &&
          isActive "cancelled") = false
        rw [show isActive "cancelled" = false from rfl, Bool.and_false]
      · simp only [hpb, Bool.false_eq_true, if_false] at he
        rw [← he]
        by_cases hid2 : b.bookingId = bookingId
        · have hbb0 : b = b0 :=
            hInv.eq_of_id hb hb0 (hid2.trans (cancelPred_id hp0).symm)
          rw [hbb0, hp0] at hpb
          exact absurd rfl hpb
        · have hfid : (b.bookingId == bookingId) = false := by simpa using hid2
          rw [hfid, Bool.false_and, Bool.false_and]
    unfold cancelBooking
    unfold sqlUpdateBookings
    rw [any_false_of_pointwise (fun b' hb' => by
        simp only [hpw b' hb', Bool.false_and]),
      any_false_of_pointwise (fun b' hb' => by
        simp only [hpw b' hb', Bool.false_and]),
      List.countP_eq_zero.mpr (fun b' hb' => by simp [hpw b' hb'])]
    rfl
  · intro b hb hid hpast
    refine hcnt0 (List.countP_eq_zero.mpr ?_)
    intro r hr hpredr
    have : r = b := hInv.eq_of_id hr hb ((cancelPred_id hpredr).trans hid.symm)
    rw [this] at hpredr
    simp only [Bool.and_eq_true, decide_eq_true_eq] at hpredr
    exact absurd hpredr.1.2 (by omega)

theorem cancel_spec_witness :
    Inv wDBc3 ∧
    (((∃ db', cancelBooking wDBc3 (rdOfDate 2024 1 10) 50 1 7 = .ok db') ↔
      ∃ b ∈ wDBc3.bookings, b.bookingId = 1 ∧
        rdOfDate 2024 1 10 ≤ b.checkInDate ∧
        (b.bookingStatus = "pending" ∨ b.bookingStatus = "confirmed")) ∧
    (∀ db', cancelBooking wDBc3 (rdOfDate 2024 1 10) 50 1 7 = .ok db' →
      db'.bookings = (wDBc3.bookings.map fun b =>
        if (b.bookingId == 1 && decide (rdOfDate 2024 1 10 ≤ b.checkInDate) &&
            isActive b.bookingStatus)
        then { b with bookingStatus := "cancelled", updatedAt := 50 } else b) ∧
      db'.bookingGuests = wDBc3.bookingGuests) ∧
    (∀ db' today2 now2 userId2,
      cancelBooking wDBc3 (rdOfDate 2024 1 10) 50 1 7 = .ok db' →
      cancelBooking db' today2 now2 1 userId2 = .error Err.notCancellable) ∧
    (∀ b ∈ wDBc3.bookings, b.bookingId = 1 →
      b.checkInDate < rdOfDate 2024 1 10 →
      cancelBooking wDBc3 (rdOfDate 2024 1 10) 50 1 7 =
        .error Err.notCancellable)) :=
  ⟨by decide, cancel_spec wDBc3 (rdOfDate 2024 1 10) 50 1 7 (by decide)⟩

/-! ## Claim C7 — partial update semantics -/

/-- An update request supplying only `booking_notes`. -/
def notesOnlyReq (v : String) : UpdateBookingRequest :=
  { guestName := none, guestIdCard := none, guestContactNumber := none
    guestEmail := none, checkInDate := none, checkOutDate := none
    numberOfGuests := none, bookingNotes := some v, specialRequests := none
    bookingAmount := none, bookingStatus := none, paymentStatus := none }

/-- Create request for stay 2024-01-10 … 2024-01-20 on property 5. -/
def wReqX : CreateBookingRequest :=
  { wReqA with checkInDate := "2024-01-10", checkOutDate := "2024-01-20" }

/-- Create request for stay 2024-01-12 … 2024-01-18 on property 5. -/
def wReqY : CreateBookingRequest :=
  { wReqA with checkInDate := "2024-01-12", checkOutDate := "2024-01-18" }

def wBookingX : Booking :=
  newBookingRow 0 7 1 wReqX (rdOfDate 2024 1 10) (rdOfDate 2024 1 20)

def wBookingXc : Booking :=
  { wBookingX with bookingStatus := "cancelled", updatedAt := 1 }

def wBookingY : Booking :=
  newBookingRow 2 7 2 wReqY (rdOfDate 2024 1 12) (rdOfDate 2024 1 18)

/-- The store after: create X = [2024-01-10, 2024-01-20); cancel X; create
Y = [2024-01-12, 2024-01-18) on the same property (allowed, X is inactive). -/
def wDBc7 : DB := ⟨[wBookingXc, wBookingY], []⟩

theorem wDBc7_reachable : Reachable wDBc7 :=
  Reachable.create ⟨[wBookingXc], []⟩ wDBc7 2 7 2 [] wReqY
    (Reachable.cancel ⟨[wBookingX], []⟩ ⟨[wBookingXc], []⟩ (rdOfDate 2024 1 5) 1 1 7
      (Reachable.create DB.empty ⟨[wBookingX], []⟩ 0 7 1 [] wReqX
        Reachable.empty (by rfl))
      (by rfl))
    (by rfl)

/-- Counterexample to claim C7 as stated: in the reachable store `wDBc7`
(cancelled booking 1 = [2024-01-10, 2024-01-20) and active booking 2 =
[2024-01-12, 2024-01-18) on one property), updating only `booking_notes` of
the existing booking 1 does trigger the overlap re-check — the BEFORE UPDATE
trigger fires on every UPDATE — and the call fails with the overlap error
instead of changing the notes field. -/
theorem update_notes_only_counterexample :
    Reachable wDBc7 ∧ wBookingXc ∈ wDBc7.bookings ∧
      updateBooking wDBc7 3 1 7 (notesOnlyReq "hi") = .error Err.overlap :=
  ⟨wDBc7_reachable, by decide, by rfl⟩

/-- The overlap trigger passes for a rewritten row that keeps its id, property
and dates, provided the original row is active, in an invariant state. -/
theorem overlapViolation_same_dates_false {db : DB} (hInv : Inv db)
    {b nb : Booking} (hb : b ∈ db.bookings)
    (hact : isActive b.bookingStatus = true)
    (hidq : nb.bookingId = b.bookingId) (hpq : nb.propertyId = b.propertyId)
    (hciq : nb.checkInDate = b.checkInDate)
    (hcoq : nb.checkOutDate = b.checkOutDate) :
    overlapViolation db.bookings nb = false := by
  obtain ⟨huniq, hrows, hconf⟩ := hInv
  rw [Bool.eq_false_iff]
  intro hov
  obtain ⟨o, ho, hop, hoa, hoid, hoc⟩ := (overlapViolation_iff _ _).mp hov
  rw [hciq, hcoq] at hoc
  rw [hidq] at hoid
  rw [hpq] at hop
  have hx := (rangesConflict_eq_intersect b.checkInDate b.checkOutDate
    o.checkInDate o.checkOutDate (rowChecksOk_dates (hrows b hb))
    (rowChecksOk_dates (hrows o ho))).mp hoc
  exact hconf o ho b hb hoid hop hoa hact ⟨hx.2, hx.1⟩

/-- Claim C7 (amended): `UpdateBooking` changes exactly the supplied fields
plus the updated-at timestamp and leaves unsupplied fields at their prior
values (the merge is `applyUpdateFields`); it fails with the not-found error
when the booking id does not exist.  A request supplying only `booking_notes`
rewrites only that field and updated-at, but the overlap check runs on every
update — not only when dates or status change — so under the store invariant
the notes-only update succeeds iff the booking exists and its own dates pass
the trigger against the other active bookings, which is always the case when
the updated booking is itself active. -/
theorem update_partial_spec :
    (∀ (db : DB) (now bookingId userId : Nat) (req : UpdateBookingRequest)
      (ci co : Option Nat), parsedCheckIn req = .ok ci →
      parsedCheckOut req = .ok co → hasAnyField req = true →
      (∀ b ∈ db.bookings, b.bookingId ≠ bookingId) →
      updateBooking db now bookingId userId req = .error Err.notFound) ∧
    (∀ (db db' : DB) (now bookingId userId : Nat) (req : UpdateBookingRequest)
      (ci co : Option Nat), parsedCheckIn req = .ok ci →
      parsedCheckOut req = .ok co →
      updateBooking db now bookingId userId req = .ok db' →
      db'.bookings = (db.bookings.map fun b =>
        if b.bookingId == bookingId then applyUpdateFields req ci co now b
        else b) ∧
      db'.bookingGuests = db.bookingGuests) ∧
    (∀ (b : Booking) (now : Nat) (v : String),
      applyUpdateFields (notesOnlyReq v) none none now b =
        { b with bookingNotes := some v, updatedAt := now }) ∧
    (∀ (db : DB) (now bookingId userId : Nat) (v : String), Inv db →
      ((∃ db', updateBooking db now bookingId userId (notesOnlyReq v) = .ok db') ↔
        ∃ b ∈ db.bookings, b.bookingId = bookingId ∧
          overlapViolation db.bookings
            (applyUpdateFields (notesOnlyReq v) none none now b) = false)) ∧
    (∀ (db : DB) (now bookingId userId : Nat) (v : String), Inv db →
      ∀ b ∈ db.bookings, b.bookingId = bookingId →
      isActive b.bookingStatus = true →
      overlapViolation db.bookings
        (applyUpdateFields (notesOnlyReq v) none none now b) = false) := by
  have happly : ∀ (b : Booking) (now : Nat) (v : String),
      applyUpdateFields (notesOnlyReq v) none none now b =
        { b with bookingNotes := some v, updatedAt := now } := fun b now v => rfl
  refine ⟨?_, ?_, happly, ?_, ?_⟩
  · intro db now bookingId userId req ci co hpci hpco hf hne
    unfold updateBooking
    rw [hpci, hpco]
    simp only [hf, Bool.not_true, Bool.false_eq_true, if_false]
    unfold sqlUpdateBookings
    have hfid : ∀ b ∈ db.bookings, (b.bookingId == bookingId) = false :=
      fun b hb => by simpa using hne b hb
    rw [any_false_of_pointwise (fun b hb => by
        simp only [hfid b hb, Bool.false_and]),
      any_false_of_pointwise (fun b hb => by
        simp only [hfid b hb, Bool.false_and]),
      List.countP_eq_zero.mpr (fun b hb => by simp [hfid b hb])]
    rfl
  · intro db db' now bookingId userId req ci co hpci hpco hok
    unfold updateBooking at hok
    rw [hpci, hpco] at hok
    simp only [] at hok
    cases hf : hasAnyField req <;>
      simp only [hf, Bool.not_true, Bool.not_false, Bool.false_eq_true, if_false,
        if_true] at hok
    · exact absurd hok (by simp)
    · cases hup : sqlUpdateBookings db (fun b => b.bookingId == bookingId)
          (applyUpdateFields req ci co now) <;> simp only [hup] at hok
      case error e => exact absurd hok (by simp)
      case ok p =>
        obtain ⟨db1, k⟩ := p
        obtain ⟨-, hbk, hbg, -⟩ := sqlUpdateBookings_ok hup
        cases k with
        | zero => simp at hok
        | succ k2 =>
          simp only [Nat.succ_eq_add_one] at hok
          rw [if_neg (by simp)] at hok
          injection hok with h1
          rw [← h1]
          exact ⟨hbk, hbg⟩
  · intro db now bookingId userId v hInv
    constructor
    · rintro ⟨db', hok⟩
      unfold updateBooking at hok
      rw [show parsedCheckIn (notesOnlyReq v) = .ok none from rfl,
        show parsedCheckOut (notesOnlyReq v) = .ok none from rfl] at hok
      simp only [show hasAnyField (notesOnlyReq v) = true from rfl,
        Bool.not_true, Bool.false_eq_true, if_false] at hok
      cases hup : sqlUpdateBookings db (fun b => b.bookingId == bookingId)
          (applyUpdateFields (notesOnlyReq v) none none now) <;>
        simp only [hup] at hok
      case error e => exact absurd hok (by simp)
      case ok p =>
        obtain ⟨db1, k⟩ := p
        obtain ⟨hrows', -, -, hk⟩ := sqlUpdateBookings_ok hup
        cases k with
        | zero => simp at hok
        | succ k2 =>
          have hpos : 0 < db.bookings.countP
              (fun b => b.bookingId == bookingId) := by omega
          obtain ⟨b, hb, hpred⟩ := List.countP_pos.mp hpos
          refine ⟨b, hb, by simpa using hpred, (hrows' b hb hpred).1⟩
    · rintro ⟨b, hb, hid, hov⟩
      have hpred : (b.bookingId == bookingId) = true := by simpa using hid
      have hone : ∀ r ∈ db.bookings, (r.bookingId == bookingId) = true → r = b :=
        fun r hr hpr =>
          hInv.eq_of_id hr hb ((beq_iff_eq.mp hpr).trans hid.symm)
      have h1 : db.bookings.any (fun r => (r.bookingId == bookingId) &&
          overlapViolation db.bookings
            (applyUpdateFields (notesOnlyReq v) none none now r)) = false := by
        refine any_false_of_pointwise ?_
        intro r hr
        by_cases hpr : (r.bookingId == bookingId) = true
        · rw [hone r hr hpr, hov, Bool.and_false]
        · rw [Bool.eq_false_iff.mpr hpr, Bool.false_and]
      have h2 : db.bookings.any (fun r => (r.bookingId == bookingId) &&
          !rowChecksOk (applyUpdateFields (notesOnlyReq v) none none now r)) =
          false := by
        refine any_false_of_pointwise ?_
        intro r hr
        have : rowChecksOk (applyUpdateFields (notesOnlyReq v) none none now r) =
            rowChecksOk r := rfl
        rw [this, hInv.2.1 r hr]
        simp
      have hpos : 0 < db.bookings.countP (fun r => r.bookingId == bookingId) :=
        List.countP_pos.mpr ⟨b, hb, hpred⟩
      refine ⟨{ db with bookings := db.bookings.map fun r =>
        if r.bookingId == bookingId
        then applyUpdateFields (notesOnlyReq v) none none now r else r }, ?_⟩
      unfold updateBooking
      rw [show parsedCheckIn (notesOnlyReq v) = .ok none from rfl,
        show parsedCheckOut (notesOnlyReq v) = .ok none from rfl]
      simp only [show hasAnyField (notesOnlyReq v) = true from rfl,
        Bool.not_true, Bool.false_eq_true, if_false]
      unfold sqlUpdateBookings
      rw [h1, h2]
      simp only [Bool.false_eq_true, if_false]
      rw [if_neg (by simpa using Nat.pos_iff_ne_zero.mp hpos)]
  · intro db now bookingId userId v hInv b hb hid hact
    exact overlapViolation_same_dates_false hInv hb hact rfl rfl rfl rfl

/-- Store `wDBc3` after the notes-only update of booking 1 at time 9. -/
def wDBc3notes : DB :=
  ⟨[{ wBookingA with bookingNotes := some "hi", updatedAt := 9 }], []⟩

theorem update_partial_spec_witness :
    (updateBooking DB.empty 5 1 7 (notesOnlyReq "x") = .error Err.notFound) ∧
    (updateBooking wDBc3 9 1 7 (notesOnlyReq "hi") = .ok wDBc3notes ∧
      wDBc3notes.bookings = (wDBc3.bookings.map fun b =>
        if b.bookingId == 1
        then applyUpdateFields (notesOnlyReq "hi") none none 9 b else b) ∧
      wDBc3notes.bookingGuests = wDBc3.bookingGuests) ∧
    (applyUpdateFields (notesOnlyReq "hi") none none 9 wBookingA =
      { wBookingA with bookingNotes := some "hi", updatedAt := 9 }) ∧
    Inv wDBc3 ∧
    ((∃ db', updateBooking wDBc3 9 1 7 (notesOnlyReq "hi") = .ok db') ↔
      ∃ b ∈ wDBc3.bookings, b.bookingId = 1 ∧
        overlapViolation wDBc3.bookings
          (applyUpdateFields (notesOnlyReq "hi") none none 9 b) = false) ∧
    overlapViolation wDBc3.bookings
      (applyUpdateFields (notesOnlyReq "hi") none none 9 wBookingA) = false :=
  ⟨update_partial_spec.1 DB.empty 5 1 7 (notesOnlyReq "x") none none rfl rfl
      rfl (by simp [DB.empty]),
    ⟨by rfl, update_partial_spec.2.1 wDBc3 wDBc3notes 9 1 7 (notesOnlyReq "hi")
      none none rfl rfl (by rfl)⟩,
    update_partial_spec.2.2.1 wBookingA 9 "hi",
    by decide,
    update_partial_spec.2.2.2.1 wDBc3 9 1 7 "hi" (by decide),
    update_partial_spec.2.2.2.2 wDBc3 9 1 7 "hi" (by decide) wBookingA
      (by decide) (by decide) (by decide)⟩

/-! ## Claim C9 — upcoming and previous listings -/

/-- Claim C9: `GetUpcomingBookings` returns exactly the bookings of the
property with status `pending` or `confirmed` whose check-in date lies
between today and the upper bound (both inclusive), sorted by check-in
ascending; `GetPreviousBookings` returns, with no status filter, exactly the
bookings whose check-out date is before today and on/after the lower bound,
sorted by check-out descending. -/
theorem listing_queries_spec (db : DB) (pid today upToDate backToDate : Nat) :
    (∀ b, b ∈ getUpcomingBookings db today pid upToDate ↔
      (b ∈ db.bookings ∧ b.propertyId = pid ∧ today ≤ b.checkInDate ∧
        b.checkInDate ≤ upToDate ∧
        (b.bookingStatus = "pending" ∨ b.bookingStatus = "confirmed"))) ∧
    List.Sorted checkInAsc (getUpcomingBookings db today pid upToDate) ∧
    (∀ b, b ∈ getPreviousBookings db today pid backToDate ↔
      (b ∈ db.bookings ∧ b.propertyId = pid ∧ b.checkOutDate < today ∧
        backToDate ≤ b.checkOutDate)) ∧
    List.Sorted checkOutDesc (getPreviousBookings db today pid backToDate) := by
  refine ⟨?_, ?_, ?_, ?_⟩
  · intro b
    unfold getUpcomingBookings
    simp only [List.mem_insertionSort, List.mem_filter, Bool.and_eq_true,
      beq_iff_eq, decide_eq_true_eq, isActive_iff]
    tauto
  · exact List.sorted_insertionSort checkInAsc _
  · intro b
    unfold getPreviousBookings
    simp only [List.mem_insertionSort, List.mem_filter, Bool.and_eq_true,
      beq_iff_eq, decide_eq_true_eq]
    tauto
  · exact List.sorted_insertionSort checkOutDesc _

/-! ## Claim C5 — month calendar projection -/

theorem daysInMonth_pos (y m : Nat) (h1 : 1 ≤ m) (h2 : m ≤ 12) :
    1 ≤ daysInMonth y m := by
  interval_cases m <;> simp [daysInMonth] <;> split <;> omega

theorem month_span (y m : Nat) (h1 : 1 ≤ m) (h2 : m ≤ 12) :
    firstDayRd y m ≤ lastDayRd y m ∧
      lastDayRd y m + 1 - firstDayRd y m = daysInMonth y m := by
  have hpos := daysInMonth_pos y m h1 h2
  have hstep : daysBeforeMonth y (m + 1) =
      daysBeforeMonth y m + daysInMonth y m := rfl
  unfold firstDayRd lastDayRd rdOfDate
  omega

theorem inYearMonth_eq_true_iff (y m d : Nat) :
    inYearMonth y m d = true ↔ (firstDayRd y m ≤ d ∧ d ≤ lastDayRd y m) := by
  simp [inYearMonth]

theorem mem_bookingDays (b : Booking) (d : Nat) :
    d ∈ bookingDays b ↔ (b.checkInDate ≤ d ∧ d < b.checkOutDate) := by
  unfold bookingDays
  rw [List.mem_map]
  constructor
  · rintro ⟨k, hk, rfl⟩
    rw [List.mem_range] at hk
    omega
  · rintro ⟨hl, hr⟩
    exact ⟨d - b.checkInDate, List.mem_range.mpr (by omega), by omega⟩

theorem foldl_mark_apply (g : Nat → Bool) (v : Nat) (ds : List Nat)
    (acc : Nat → Option Nat) (x : Nat) :
    (ds.foldl (fun acc2 d => if g d then
        (fun z => if z = d then some v else acc2 z) else acc2) acc) x =
      if x ∈ ds ∧ g x = true then some v else acc x := by
  induction ds generalizing acc with
  | nil => simp
  | cons d ds ih =>
    rw [List.foldl_cons]
    by_cases hgd : g d = true
    · rw [if_pos hgd, ih]
      show (if x ∈ ds ∧ g x = true then some v
            else if x = d then some v else acc x) =
          (if x ∈ d :: ds ∧ g x = true then some v else acc x)
      by_cases hg : g x = true
      · by_cases hxds : x ∈ ds
        · have h1 : x ∈ ds ∧ g x = true := ⟨hxds, hg⟩
          have h2 : x ∈ d :: ds ∧ g x = true :=
            ⟨List.mem_cons_of_mem d hxds, hg⟩
          rw [if_pos h1, if_pos h2]
        · have h1 : ¬(x ∈ ds ∧ g x = true) := fun hc => hxds hc.1
          rw [if_neg h1]
          by_cases hxd : x = d
          · have h2 : x ∈ d :: ds ∧ g x = true :=
              ⟨List.mem_cons.mpr (Or.inl hxd), hg⟩
            rw [if_pos h2, if_pos hxd]
          · have h2 : ¬(x ∈ d :: ds ∧ g x = true) :=
              fun hc => (List.mem_cons.mp hc.1).elim hxd hxds
            rw [if_neg h2, if_neg hxd]
      · have h1 : ¬(x ∈ ds ∧ g x = true) := fun hc => hg hc.2
        have h2 : ¬(x ∈ d :: ds ∧ g x = true) := fun hc => hg hc.2
        rw [if_neg h1, if_neg h2]
        have hxd : ¬(x = d) := fun he => hg (by rw [he]; exact hgd)
        rw [if_neg hxd]
    · rw [if_neg hgd, ih]
      by_cases hc : x ∈ ds ∧ g x = true
      · have h2 : x ∈ d :: ds ∧ g x = true :=
          ⟨List.mem_cons_of_mem d hc.1, hc.2⟩
        rw [if_pos hc, if_pos h2]
      · have h2 : ¬(x ∈ d :: ds ∧ g x = true) := by
          intro hcc
          rcases List.mem_cons.mp hcc.1 with rfl | hm
          · exact hgd hcc.2
          · exact hc ⟨hm, hcc.2⟩
        rw [if_neg hc, if_neg h2]

theorem markBookingDays_apply (y m : Nat) (b : Booking)
    (acc : Nat → Option Nat) (x : Nat) :
    markBookingDays y m b acc x =
      if x ∈ bookingDays b ∧ inYearMonth y m x = true then some b.bookingId
      else acc x :=
  foldl_mark_apply (fun d => inYearMonth y m d) b.bookingId (bookingDays b) acc x

theorem bookedFold_isSome (y m : Nat) (bs : List Booking)
    (acc : Nat → Option Nat) (x : Nat) :
    ((bs.foldl (fun acc2 b => markBookingDays y m b acc2) acc) x).isSome = true ↔
      ((acc x).isSome = true ∨
        ∃ b ∈ bs, x ∈ bookingDays b ∧ inYearMonth y m x = true) := by
  induction bs generalizing acc with
  | nil => simp
  | cons b bs ih =>
    rw [List.foldl_cons, ih, markBookingDays_apply]
    by_cases hc : x ∈ bookingDays b ∧ inYearMonth y m x = true
    · rw [if_pos hc]
      simp only [Option.isSome_some, true_or, true_iff]
      exact Or.inr ⟨b, List.mem_cons_self b bs, hc⟩
    · rw [if_neg hc]
      constructor
      · rintro (h | ⟨b2, hb2, hp⟩)
        · exact Or.inl h
        · exact Or.inr ⟨b2, List.mem_cons_of_mem b hb2, hp⟩
      · rintro (h | ⟨b2, hb2, hp⟩)
        · exact Or.inl h
        · rcases List.mem_cons.mp hb2 with rfl | hm
          · exact absurd hp hc
          · exact Or.inr ⟨b2, hm, hp⟩

theorem bookedFold_some (y m : Nat) (bs : List Booking)
    (acc : Nat → Option Nat) (x i : Nat)
    (h : (bs.foldl (fun acc2 b => markBookingDays y m b acc2) acc) x = some i) :
    acc x = some i ∨ ∃ b ∈ bs, b.bookingId = i ∧ x ∈ bookingDays b ∧
      inYearMonth y m x = true := by
  induction bs generalizing acc with
  | nil => exact Or.inl h
  | cons b bs ih =>
    rw [List.foldl_cons] at h
    rcases ih _ h with hacc | ⟨b2, hb2, rest⟩
    · rw [markBookingDays_apply] at hacc
      by_cases hc : x ∈ bookingDays b ∧ inYearMonth y m x = true
      · rw [if_pos hc] at hacc
        injection hacc with hv
        exact Or.inr ⟨b, List.mem_cons_self b bs, hv, hc⟩
      · rw [if_neg hc] at hacc
        exact Or.inl hacc
    · exact Or.inr ⟨b2, List.mem_cons_of_mem b hb2, rest⟩

theorem bookedDatesMap_isSome (db : DB) (pid y m x : Nat) :
    ((bookedDatesMap db pid y m) x).isSome = true ↔
      ∃ b ∈ calendarFetch db pid y m, x ∈ bookingDays b ∧
        inYearMonth y m x = true := by
  unfold bookedDatesMap
  rw [bookedFold_isSome]
  simp

theorem bookedDatesMap_some (db : DB) (pid y m x i : Nat)
    (h : bookedDatesMap db pid y m x = some i) :
    ∃ b ∈ calendarFetch db pid y m, b.bookingId = i ∧ x ∈ bookingDays b ∧
      inYearMonth y m x = true := by
  unfold bookedDatesMap at h
  rcases bookedFold_some y m _ _ x i h with hnone | h2
  · exact absurd hnone (by simp)
  · exact h2

/-- Claim C5: for a month in `1..12`, `GetMonthCalendar` emits exactly one
entry per calendar day, in ascending order from the first day through the
last; a day is booked iff some `pending`/`confirmed` booking of the property
covers it under half-open semantics (so a booking spanning two months
contributes only the days inside the queried month); and a booked day carries
the id of a covering active booking. -/
theorem getMonthCalendar_spec (db : DB) (pid y m : Nat)
    (hm1 : 1 ≤ m) (hm2 : m ≤ 12) :
    ((getMonthCalendar db pid y m).days.map (fun day => day.date) =
      (List.range (daysInMonth y m)).map (fun k => firstDayRd y m + k)) ∧
    (∀ day ∈ (getMonthCalendar db pid y m).days,
      (day.isBooked = true ↔ ∃ b ∈ db.bookings, b.propertyId = pid ∧
        (b.bookingStatus = "pending" ∨ b.bookingStatus = "confirmed") ∧
        b.checkInDate ≤ day.date ∧ day.date < b.checkOutDate)) ∧
    (∀ day ∈ (getMonthCalendar db pid y m).days, ∀ i, day.bookingId = some i →
      ∃ b ∈ db.bookings, b.bookingId = i ∧ b.propertyId = pid ∧
        (b.bookingStatus = "pending" ∨ b.bookingStatus = "confirmed") ∧
        b.checkInDate ≤ day.date ∧ day.date < b.checkOutDate) := by
  obtain ⟨hfl, hspan⟩ := month_span y m hm1 hm2
  have hfetch : ∀ b, b ∈ calendarFetch db pid y m ↔
      (b ∈ db.bookings ∧ b.propertyId = pid ∧
        (b.bookingStatus = "pending" ∨ b.bookingStatus = "confirmed") ∧
        b.checkInDate ≤ lastDayRd y m ∧ firstDayRd y m < b.checkOutDate) := by
    intro b
    unfold calendarFetch
    rw [List.mem_filter]
    simp only [Bool.and_eq_true, beq_iff_eq, decide_eq_true_eq, isActive_iff]
    tauto
  refine ⟨?_, ?_, ?_⟩
  · show ((List.range (lastDayRd y m + 1 - firstDayRd y m)).map fun k =>
      CalendarDay.mk (firstDayRd y m + k)
        ((bookedDatesMap db pid y m (firstDayRd y m + k)).isSome)
        (bookedDatesMap db pid y m (firstDayRd y m + k))).map
        (fun day => day.date) =
      (List.range (daysInMonth y m)).map (fun k => firstDayRd y m + k)
    rw [hspan, List.map_map]
    rfl
  · intro day hday
    obtain ⟨k, hk, rfl⟩ := List.mem_map.mp hday
    have hklt : k < daysInMonth y m := by
      rw [← hspan]
      exact List.mem_range.mp hk
    have hd2 : firstDayRd y m + k ≤ lastDayRd y m := by omega
    show (bookedDatesMap db pid y m (firstDayRd y m + k)).isSome = true ↔
      ∃ b ∈ db.bookings, b.propertyId = pid ∧
        (b.bookingStatus = "pending" ∨ b.bookingStatus = "confirmed") ∧
        b.checkInDate ≤ firstDayRd y m + k ∧
        firstDayRd y m + k < b.checkOutDate
    rw [bookedDatesMap_isSome]
    constructor
    · rintro ⟨b, hbf, hdays, -⟩
      obtain ⟨hb, hprop, hst, -, -⟩ := (hfetch b).mp hbf
      have hdd := (mem_bookingDays b _).mp hdays
      exact ⟨b, hb, hprop, hst, hdd.1, hdd.2⟩
    · rintro ⟨b, hb, hprop, hst, hci, hco⟩
      refine ⟨b, (hfetch b).mpr ⟨hb, hprop, hst, by omega, by omega⟩,
        (mem_bookingDays b _).mpr ⟨hci, hco⟩, ?_⟩
      rw [inYearMonth_eq_true_iff]
      exact ⟨Nat.le_add_right _ _, hd2⟩
  · intro day hday i hbid
    obtain ⟨k, hk, rfl⟩ := List.mem_map.mp hday
    obtain ⟨b, hbf, hbi, hdays, -⟩ := bookedDatesMap_some db pid y m _ i hbid
    obtain ⟨hb, hprop, hst, -, -⟩ := (hfetch b).mp hbf
    have hdd := (mem_bookingDays b _).mp hdays
    exact ⟨b, hb, hbi, hprop, hst, hdd.1, hdd.2⟩

/-- A booking spanning 2024-01-28 … 2024-02-03 on property 5. -/
def wReqM : CreateBookingRequest :=
  { wReqA with checkInDate := "2024-01-28", checkOutDate := "2024-02-03" }

def wBookingM : Booking :=
  newBookingRow 0 7 1 wReqM (rdOfDate 2024 1 28) (rdOfDate 2024 2 3)

def wDBm : DB := ⟨[wBookingM], []⟩

theorem getMonthCalendar_spec_witness :
    ((1 : Nat) ≤ 1 ∧ (1 : Nat) ≤ 12) ∧
    (((getMonthCalendar wDBm 5 2024 1).days.map (fun day => day.date) =
      (List.range (daysInMonth 2024 1)).map (fun k => firstDayRd 2024 1 + k)) ∧
    (∀ day ∈ (getMonthCalendar wDBm 5 2024 1).days,
      (day.isBooked = true ↔ ∃ b ∈ wDBm.bookings, b.propertyId = 5 ∧
        (b.bookingStatus = "pending" ∨ b.bookingStatus = "confirmed") ∧
        b.checkInDate ≤ day.date ∧ day.date < b.checkOutDate)) ∧
    (∀ day ∈ (getMonthCalendar wDBm 5 2024 1).days, ∀ i, day.bookingId = some i →
      ∃ b ∈ wDBm.bookings, b.bookingId = i ∧ b.propertyId = 5 ∧
        (b.bookingStatus = "pending" ∨ b.bookingStatus = "confirmed") ∧
        b.checkInDate ≤ day.date ∧ day.date < b.checkOutDate)) :=
  ⟨⟨by decide, by decide⟩,
    getMonthCalendar_spec wDBm 5 2024 1 (by decide) (by decide)⟩

/-! ## Claim C8 — guest-name search -/

/-- A character with no special meaning in a SQL LIKE pattern. -/
def cleanChar (c : Char) : Prop := c ≠ '%' ∧ c ≠ '_' ∧ c ≠ '\\'

theorem mem_suffixes (s t : List Char) : t ∈ suffixes s ↔ t <:+ s := by
  induction s with
  | nil => simp [suffixes]
  | cons c s ih => simp [suffixes, List.mem_cons, ih, List.suffix_cons_iff]

theorem likeMatch_nil (s : List Char) : likeMatch [] s = s.isEmpty := rfl

instance (c : Char) : Decidable (cleanChar c) := by
  unfold cleanChar
  infer_instance

theorem likeMatch_pct (ps s : List Char) :
    likeMatch ('%' :: ps) s = (suffixes s).any fun t => likeMatch ps t := by
  cases ps <;> cases s <;> simp [likeMatch]

theorem likeMatch_lit_nil {c : Char} (h1 : c ≠ '\\') (h2 : c ≠ '%')
    (h3 : c ≠ '_') (ps : List Char) : likeMatch (c :: ps) [] = false := by
  simp only [likeMatch]
  rw [if_neg h1, if_neg h2, if_neg h3]

theorem likeMatch_lit_cons {c : Char} (h1 : c ≠ '\\') (h2 : c ≠ '%')
    (h3 : c ≠ '_') (ps : List Char) (x : Char) (t : List Char) :
    likeMatch (c :: ps) (x :: t) = (c == x && likeMatch ps t) := by
  cases ps <;>
    · simp only [likeMatch]
      rw [if_neg h1, if_neg h2, if_neg h3]

theorem likeMatch_clean_iff (p : List Char) (hp : ∀ c ∈ p, cleanChar c)
    (h : List Char) : likeMatch p h = true ↔ h = p := by
  induction p generalizing h with
  | nil => cases h <;> simp [likeMatch_nil]
  | cons c p ih =>
    obtain ⟨hc1, hc2, hc3⟩ := hp c (List.mem_cons_self c p)
    have hp2 : ∀ a ∈ p, cleanChar a := fun a ha => hp a (List.mem_cons_of_mem c ha)
    cases h with
    | nil =>
      rw [likeMatch_lit_nil hc3 hc1 hc2]
      simp
    | cons x t =>
      rw [likeMatch_lit_cons hc3 hc1 hc2]
      simp only [Bool.and_eq_true, beq_iff_eq, ih hp2]
      constructor
      · rintro ⟨rfl, rfl⟩
        rfl
      · intro he
        injection he with he1 he2
        exact ⟨he1.symm, he2⟩

theorem likeMatch_prefix_iff (s : List Char) (hs : ∀ c ∈ s, cleanChar c)
    (h : List Char) : likeMatch (s ++ ['%']) h = true ↔ s <+: h := by
  induction s generalizing h with
  | nil =>
    simp only [List.nil_append]
    rw [likeMatch_pct]
    simp only [List.any_eq_true]
    constructor
    · intro _
      exact List.nil_prefix
    · intro _
      exact ⟨[], (mem_suffixes h []).mpr List.nil_suffix, rfl⟩
  | cons c s ih =>
    obtain ⟨hc1, hc2, hc3⟩ := hs c (List.mem_cons_self c s)
    have hs2 : ∀ a ∈ s, cleanChar a := fun a ha => hs a (List.mem_cons_of_mem c ha)
    cases h with
    | nil =>
      rw [List.cons_append, likeMatch_lit_nil hc3 hc1 hc2]
      simp
    | cons x t =>
      rw [List.cons_append, likeMatch_lit_cons hc3 hc1 hc2,
        List.cons_prefix_cons]
      simp only [Bool.and_eq_true, beq_iff_eq, ih hs2]

theorem likeMatch_contains_iff (s : List Char) (hs : ∀ c ∈ s, cleanChar c)
    (h : List Char) : likeMatch ('%' :: (s ++ ['%'])) h = true ↔ s <:+: h := by
  rw [likeMatch_pct]
  simp only [List.any_eq_true]
  rw [List.infix_iff_prefix_suffix]
  constructor
  · rintro ⟨t, htm, hlm⟩
    exact ⟨t, (likeMatch_prefix_iff s hs t).mp hlm, (mem_suffixes h t).mp htm⟩
  · rintro ⟨t, hp, hsf⟩
    exact ⟨t, (mem_suffixes h t).mpr hsf, (likeMatch_prefix_iff s hs t).mpr hp⟩

theorem toNat_ofNat_valid {n : Nat} (h : n.isValidChar) :
    (Char.ofNat n).toNat = n := by
  unfold Char.ofNat
  rw [dif_pos h]
  unfold Char.ofNatAux Char.toNat
  rfl

theorem toLower_cleanChar {c : Char} (h : cleanChar c) :
    cleanChar (Char.toLower c) := by
  show cleanChar (if c.toNat ≥ 65 ∧ c.toNat ≤ 90 then Char.ofNat (c.toNat + 32)
    else c)
  by_cases hu : c.toNat ≥ 65 ∧ c.toNat ≤ 90
  · rw [if_pos hu]
    have hv : (c.toNat + 32).isValidChar := Or.inl (by omega)
    have hn := toNat_ofNat_valid hv
    refine ⟨fun heq => ?_, fun heq => ?_, fun heq => ?_⟩
    · have h2 := congrArg Char.toNat heq
      rw [hn] at h2
      have h3 : Char.toNat '%' = 37 := rfl
      omega
    · have h2 := congrArg Char.toNat heq
      rw [hn] at h2
      have h3 : Char.toNat '_' = 95 := rfl
      omega
    · have h2 := congrArg Char.toNat heq
      rw [hn] at h2
      have h3 : Char.toNat '\\' = 92 := rfl
      omega
  · rw [if_neg hu]
    exact h

theorem lowerChars_pattern (s : String) :
    lowerChars (likePatternOf s) = '%' :: (lowerChars s.data ++ ['%']) := by
  unfold likePatternOf lowerChars
  rw [List.map_cons, List.map_append]
  rfl

/-- The booking store with one booking whose primary guest is `John`. -/
def wBookingJ : Booking := { wBookingA with guestName := "John" }

def wDBc8 : DB := ⟨[wBookingJ], []⟩

/-- Counterexample to claim C8 as stated: searching `J_hn` returns the
booking with guest name `John` although `J_hn` is not a case-insensitive
substring of `John` — the Go code passes the search string into the LIKE
pattern unescaped, so `_` acts as a single-character wildcard. -/
theorem search_by_name_counterexample :
    searchBookingsByGuestName wDBc8 5 "J_hn" = [wBookingJ] ∧
      specContainsCI "J_hn" "John" = false := by
  constructor
  · rfl
  · decide

/-- Claim C8 (amended): for every search string free of the LIKE
metacharacters `%`, `_` and backslash, `SearchBookingsByGuestName` returns
exactly the bookings of the property — any status — whose primary guest name
contains the search string case-insensitively, ordered by check-in date
descending.  (A string containing a metacharacter is interpreted as a LIKE
pattern instead, as the counterexample shows.) -/
theorem search_by_name_spec (db : DB) (pid : Nat) (s : String)
    (hclean : ∀ c ∈ s.data, cleanChar c) :
    (∀ b, b ∈ searchBookingsByGuestName db pid s ↔
      (b ∈ db.bookings ∧ b.propertyId = pid ∧
        specContainsCI s b.guestName = true)) ∧
    List.Sorted checkInDesc (searchBookingsByGuestName db pid s) := by
  constructor
  · intro b
    unfold searchBookingsByGuestName
    simp only [List.mem_insertionSort, List.mem_filter, Bool.and_eq_true,
      beq_iff_eq]
    have hlow : ∀ c ∈ lowerChars s.data, cleanChar c := by
      intro c hc
      obtain ⟨c0, hc0, rfl⟩ := List.mem_map.mp hc
      exact toLower_cleanChar (hclean c0 hc0)
    have hkey : likeMatch (lowerChars (likePatternOf s))
        (lowerChars b.guestName.data) = true ↔
        specContainsCI s b.guestName = true := by
      rw [lowerChars_pattern,
        likeMatch_contains_iff (lowerChars s.data) hlow
          (lowerChars b.guestName.data)]
      unfold specContainsCI
      rw [decide_eq_true_eq]
    rw [hkey]
  · exact List.sorted_insertionSort checkInDesc _

theorem search_by_name_spec_witness :
    (∀ c ∈ "OHN".data, cleanChar c) ∧
    ((∀ b, b ∈ searchBookingsByGuestName wDBc8 5 "OHN" ↔
      (b ∈ wDBc8.bookings ∧ b.propertyId = 5 ∧
        specContainsCI "OHN" b.guestName = true)) ∧
    List.Sorted checkInDesc (searchBookingsByGuestName wDBc8 5 "OHN")) :=
  ⟨by decide, search_by_name_spec wDBc8 5 "OHN" (by decide)⟩

end Bookings
